import Mathlib

/-!
# Assessment session controller

A shallow embedding of the assessment-taking flow of
`src/pages/AssessmentDetail.jsx`: the component state, loading, view
selection, the countdown effect, quiz grading and `handleSubmit`; and of
the status classification of `src/pages/Assessments.jsx`.

JavaScript numbers are IEEE 754 binary64 values.  A finite value is
represented by the rational it denotes, and every arithmetic operation
rounds its exact result with `fl` (round to nearest, ties to even,
53-bit significand).  `NaN` and `Infinity` are separate constructors of
`JsNumber`.
-/

namespace AssessmentDetail

/-! ## JavaScript numbers -/

/-- Nearest integer to `t`, ties going to the even neighbour: the
rounding IEEE 754 applies to a significand. -/
def roundHalfEven (t : ℚ) : ℤ :=
  let f := ⌊t⌋
  let r := t - f
  if r < 1 / 2 then f
  else if 1 / 2 < r then f + 1
  else if f % 2 = 0 then f else f + 1

/-- Repeated halving: the number of times `n` can be halved before it
drops below `2`, at most `fuel` times. -/
def log2Aux : ℕ → ℕ → ℕ
  | 0, _ => 0
  | fuel + 1, n => if 2 ≤ n then log2Aux fuel (n / 2) + 1 else 0

/-- The position of the leading bit of `n`, that is `⌊log₂ n⌋` for
`n ≥ 1`. -/
def natLog2 (n : ℕ) : ℕ := log2Aux n n

/-- Binary exponent of a non-zero rational: the `e` with
`2 ^ e ≤ |x| < 2 ^ (e + 1)`.  Computed from the bit lengths of numerator
and denominator, which fix `e` up to one. -/
def ilog2 (x : ℚ) : ℤ :=
  let d : ℤ := (natLog2 x.num.natAbs : ℤ) - (natLog2 x.den : ℤ)
  if (2 : ℚ) ^ d ≤ |x| then d else d - 1

/-- The binary64 value nearest to the exact result `x` (round to nearest,
ties to even).  Normal numbers carry 53 significant bits; below
`2 ^ (-1022)` the spacing stays `2 ^ (-1074)`.  Overflow to `Infinity` is
not represented: no operation of this component exceeds `2 ^ 53`. -/
def fl (x : ℚ) : ℚ :=
  if x = 0 then 0
  else
    let e := max (ilog2 x) (-1022)
    let q := (2 : ℚ) ^ (e - 52)
    (roundHalfEven (x / q) : ℚ) * q

/-- A JavaScript Number: `NaN`, `Infinity`, or a finite value. -/
inductive JsNumber where
  | nan
  | inf
  | fin (v : ℚ)
deriving DecidableEq

/-- The quotient `a / b` of two non-negative integer Numbers:
`0 / 0` is `NaN`, a positive number over `0` is `Infinity`. -/
def jsDiv (a b : ℕ) : JsNumber :=
  if b = 0 then (if a = 0 then JsNumber.nan else JsNumber.inf)
  else JsNumber.fin (fl ((a : ℚ) / (b : ℚ)))

/-- The product `x * k` of a Number with a positive finite constant. -/
def jsMul (x : JsNumber) (k : ℚ) : JsNumber :=
  match x with
  | JsNumber.nan => JsNumber.nan
  | JsNumber.inf => JsNumber.inf
  | JsNumber.fin v => JsNumber.fin (fl (v * k))

/-- `Math.round`: the integer nearest to `x`, a tie going towards `+∞`;
`NaN` and `Infinity` are returned unchanged. -/
def Math.round (x : JsNumber) : JsNumber :=
  match x with
  | JsNumber.nan => JsNumber.nan
  | JsNumber.inf => JsNumber.inf
  | JsNumber.fin v => JsNumber.fin ((⌊v + 1 / 2⌋ : ℤ) : ℚ)

/-! ## Data model -/

/-- A row of the `questions` table.  `correct_answer` is `none` when the
column is null (essay questions). -/
structure Question where
  id : String
  type : String
  correct_answer : Option String
deriving DecidableEq

/-- A row of the `assessments` table.  `time_limit` is in minutes, `none`
when the column is null. -/
structure Assessment where
  type : String
  time_limit : Option ℕ
deriving DecidableEq

/-- The `answers` object: question identifier to the student's response.
A key occurs at most once; `get` reads the entry of a key. -/
abbrev AnswerSet := List (String × String)

/-- The property read `answers[id]`; `none` stands for `undefined`. -/
def AnswerSet.get (answers : AnswerSet) (id : String) : Option String :=
  List.lookup id answers

/-- A file chosen in the upload input. -/
structure File where
  name : String
deriving DecidableEq

/-- The object passed to `supabase.from('submissions').insert`. -/
structure SubmissionRecord where
  student_id : String
  assessment_id : String
  answers : AnswerSet
  file_url : Option String
  grade : Option JsNumber
  submitted_at : String
  time_taken : Option ℤ
deriving DecidableEq

/-- The `useState` cells of the component together with the route
parameter `assessmentId`. -/
structure State where
  assessmentId : String
  assessment : Option Assessment
  questions : List Question
  answers : AnswerSet
  submission : Option SubmissionRecord
  timeRemaining : Option ℤ
  file : Option File
  loading : Bool
  submitting : Bool
  started : Bool
  startTime : Option ℤ
deriving DecidableEq

/-! ## Quiz grading (`handleSubmit`, lines 135-146) -/

/-- Truthiness of `question.correct_answer`: null and the empty string
are falsy. -/
def truthy (v : Option String) : Bool :=
  match v with
  | none => false
  | some str => str ≠ ""

/-- Strict equality `answer === question.correct_answer`: `undefined`
(absent answer) and `null` (absent correct answer) equal no string and
do not equal each other. -/
def strictEq (answer correct : Option String) : Bool :=
  match answer, correct with
  | some a, some c => a = c
  | _, _ => false

/-- The condition of the `forEach` body:
`question.correct_answer && answer === question.correct_answer`. -/
def isCorrect (answers : AnswerSet) (question : Question) : Bool :=
  truthy question.correct_answer &&
    strictEq (answers.get question.id) question.correct_answer

/-- The value of `correct` after the `forEach` loop. -/
def correctCount (questions : List Question) (answers : AnswerSet) : ℕ :=
  questions.foldl (fun correct question =>
    if isCorrect answers question then correct + 1 else correct) 0

/-- The expression `Math.round((correct / questions.length) * 100)`. -/
def percentage (correct length : ℕ) : JsNumber :=
  Math.round (jsMul (jsDiv correct length) 100)

/-- The grade of a quiz. -/
def quizGrade (questions : List Question) (answers : AnswerSet) : JsNumber :=
  percentage (correctCount questions answers) questions.length

/-- The variable `grade` at the insert: null unless the assessment type
is `quiz`. -/
def computeGrade (assessment : Assessment) (questions : List Question)
    (answers : AnswerSet) : Option JsNumber :=
  if assessment.type = "quiz" then some (quizGrade questions answers) else none

/-! ## Elapsed time and the countdown effect (lines 26-40) -/

/-- `Math.floor((now - startTime) / 1000 / 60)` for two integer
timestamps in milliseconds: each of the three operations rounds. -/
def elapsedMinutes (now startTime : ℤ) : ℤ :=
  ⌊fl (fl (fl ((now : ℚ) - (startTime : ℚ)) / 1000) / 60)⌋

/-- What one firing of the interval callback does: the argument of
`setTimeRemaining`, and whether `handleSubmit(true)` is called. -/
structure TickResult where
  timeRemaining : ℤ
  autoSubmit : Bool
deriving DecidableEq

/-- The body of the `setInterval` callback, for the `time_limit` and
`startTime` the effect closed over. -/
def intervalCallback (time_limit : ℕ) (startTime now : ℤ) : TickResult :=
  let elapsed := elapsedMinutes now startTime
  let remaining := (time_limit : ℤ) - elapsed
  { timeRemaining := max 0 remaining, autoSubmit := decide (remaining ≤ 0) }

/-- The guard of the countdown effect,
`started && assessment?.time_limit && startTime`: the limit and start
time the interval is installed with, `none` when no interval is
installed (a limit of `0` and a start time of `0` are falsy). -/
def countdownArmed (s : State) : Option (ℕ × ℤ) :=
  if s.started then
    match s.assessment with
    | none => none
    | some assessment =>
      match assessment.time_limit with
      | none => none
      | some limit =>
        if limit = 0 then none
        else
          match s.startTime with
          | none => none
          | some t => if t = 0 then none else some (limit, t)
  else none

/-! ## `handleSubmit` (lines 106-170) -/

/-- The calls `handleSubmit` makes on its collaborators and on the
component, in the order they are issued. -/
inductive Effect where
  | setSubmitting (value : Bool)
  | upload (fileName : String) (file : File)
  | createSignedUrl (fileName : String)
  | insert (record : SubmissionRecord)
  | toastError (message : String)
  | toastSuccess (message : String)
  | navigate (path : String)
deriving DecidableEq

/-- What the external services answer during one run of `handleSubmit`:
the signed-in user, the clock readings, and whether the storage upload
and the insert report an error. -/
structure SubmitEnv where
  user : Option String
  uploadNow : ℤ
  uploadError : Bool
  signedUrl : Option String
  submitNow : ℤ
  submittedAt : String
  insertError : Bool
deriving DecidableEq

/-- `file.name.split('.').pop()`. -/
def fileExt (name : String) : String :=
  ((name.splitOn ".").getLast?).getD ""

/-- Lines 118-133.  Returns the storage calls made and the value of
`fileUrl`; the second component is `none` when an exception is thrown
(the upload error, or reading `assessment.type` of a null assessment). -/
def uploadPhase (s : State) (env : SubmitEnv) (user : String) :
    List Effect × Option (Option String) :=
  match s.file with
  | none => ([], some none)
  | some file =>
    match s.assessment with
    | none => ([], none)
    | some assessment =>
      if assessment.type = "assignment" then
        let fileName := user ++ "/" ++ s.assessmentId ++ "/" ++
          toString env.uploadNow ++ "." ++ fileExt file.name
        if env.uploadError then ([Effect.upload fileName file], none)
        else
          ([Effect.upload fileName file, Effect.createSignedUrl fileName],
            some env.signedUrl)
      else ([], some none)

/-- The `time_taken` field: `startTime ? Math.floor(...) : null`. -/
def timeTaken (startTime : Option ℤ) (now : ℤ) : Option ℤ :=
  match startTime with
  | none => none
  | some t => if t = 0 then none else some (elapsedMinutes now t)

/-- The record built at lines 149-157. -/
def buildRecord (s : State) (env : SubmitEnv) (user : String)
    (assessment : Assessment) (fileUrl : Option String) : SubmissionRecord :=
  { student_id := user
    assessment_id := s.assessmentId
    answers := s.answers
    file_url := fileUrl
    grade := computeGrade assessment s.questions s.answers
    submitted_at := env.submittedAt
    time_taken := timeTaken s.startTime env.submitNow }

/-- The body of the `try` block.  Returns the calls made and whether an
exception reached the `catch` clause. -/
def tryBody (s : State) (env : SubmitEnv) : List Effect × Bool :=
  match env.user with
  | none => ([], false)
  | some user =>
    match uploadPhase s env user with
    | (calls, none) => (calls, true)
    | (calls, some fileUrl) =>
      match s.assessment with
      | none => (calls, true)
      | some assessment =>
        let record := buildRecord s env user assessment fileUrl
        if env.insertError then (calls ++ [Effect.insert record], true)
        else
          (calls ++ [Effect.insert record,
            Effect.toastSuccess "Assessment submitted successfully!",
            Effect.navigate "/assessments"], false)

/-- `handleSubmit(autoSubmit)` run to completion from the render state
`s`: the state after its `setSubmitting` calls, and the calls it made. -/
def handleSubmit (s : State) (env : SubmitEnv) (autoSubmit : Bool) :
    State × List Effect :=
  if s.submission.isSome && !autoSubmit then
    (s, [Effect.toastError "Assessment already submitted"])
  else
    let body := tryBody s env
    ({ s with submitting := false },
      [Effect.setSubmitting true] ++ body.1 ++
        (if body.2 then [Effect.toastError "Failed to submit assessment"] else []) ++
        [Effect.setSubmitting false])

/-- The records passed to `insert` among a list of calls. -/
def insertCalls (calls : List Effect) : List SubmissionRecord :=
  calls.filterMap fun call =>
    match call with
    | Effect.insert record => some record
    | _ => none

/-- The storage uploads among a list of calls. -/
def uploadCalls (calls : List Effect) : List String :=
  calls.filterMap fun call =>
    match call with
    | Effect.upload fileName _ => some fileName
    | _ => none

/-- Whether the calls leave the page (`navigate`), which unmounts the
component and clears its interval. -/
def navigatesAway (calls : List Effect) : Bool :=
  calls.any fun call =>
    match call with
    | Effect.navigate _ => true
    | _ => false

/-! ## The running interval -/

/-- A mounted component with its countdown interval: the current state,
whether the component is still mounted, every call made so far, and how
many times the interval has called `handleSubmit(true)`. -/
structure Session where
  state : State
  mounted : Bool
  calls : List Effect
  autoSubmits : ℕ
deriving DecidableEq

/-- One firing of the interval at clock reading `now`.  The callback
belongs to the render `closure` in which the effect ran; `env` is what
the services answer if it submits.  Nothing fires once the component is
unmounted or when the effect installed no interval. -/
def Session.tick (closure : State) (sess : Session) (now : ℤ) (env : SubmitEnv) :
    Session :=
  if sess.mounted then
    match countdownArmed closure with
    | none => sess
    | some (limit, startTime) =>
      let r := intervalCallback limit startTime now
      let shown := { sess.state with timeRemaining := some r.timeRemaining }
      if r.autoSubmit then
        let out := handleSubmit closure env true
        { state := { shown with submitting := out.1.submitting }
          mounted := !navigatesAway out.2
          calls := sess.calls ++ out.2
          autoSubmits := sess.autoSubmits + 1 }
      else { sess with state := shown }
  else sess

/-- A run of firings, one per `(now, env)` pair. -/
def Session.run (closure : State) (sess : Session) (ticks : List (ℤ × SubmitEnv)) :
    Session :=
  ticks.foldl (fun acc t => Session.tick closure acc t.1 t.2) sess

/-! ## Concrete sessions used in the evaluations below -/

/-- A timed quiz with a 30 minute limit. -/
def quizAssessment : Assessment := { type := "quiz", time_limit := some 30 }

/-- An assignment without a time limit. -/
def assignmentAssessment : Assessment := { type := "assignment", time_limit := none }

/-- Services that answer without error for the student `student-1`. -/
def okEnv : SubmitEnv :=
  { user := some "student-1"
    uploadNow := 1700000600000
    uploadError := false
    signedUrl := some "https://storage.example/signed"
    submitNow := 1700000600000
    submittedAt := "2023-11-14T22:23:20.000Z"
    insertError := false }

/-- The same services with an insert that reports an error. -/
def failingInsertEnv : SubmitEnv := { okEnv with insertError := true }

/-- A session in progress, started at `1700000000000` ms, with nothing
submitted yet. -/
def inProgress (assessment : Assessment) (questions : List Question)
    (answers : AnswerSet) : State :=
  { assessmentId := "assessment-1"
    assessment := some assessment
    questions := questions
    answers := answers
    submission := none
    timeRemaining := assessment.time_limit.map fun limit => (limit : ℤ)
    file := none
    loading := false
    submitting := false
    started := true
    startTime := some 1700000000000 }

/-- Forty questions that each have the correct answer `A`. -/
def fortyQuestions : List Question :=
  (List.range 40).map fun i =>
    { id := toString i, type := "multiple_choice", correct_answer := some "A" }

/-- The answer `A` recorded for the first twenty-three of them. -/
def twentyThreeAnswers : AnswerSet :=
  (List.range 23).map fun i => (toString i, "A")

/-- Twenty-three multiple-choice questions followed by seventeen essay
questions. -/
def mixedQuestions : List Question :=
  ((List.range 23).map fun i =>
    { id := toString i, type := "multiple_choice", correct_answer := some "A" }) ++
  ((List.range 17).map fun i =>
    { id := "essay-" ++ toString i, type := "essay", correct_answer := none })

/-- Every multiple-choice question answered `A`, every essay answered
with text. -/
def mixedAnswers : AnswerSet :=
  ((List.range 23).map fun i => (toString i, "A")) ++
  ((List.range 17).map fun i => ("essay-" ++ toString i, "An essay."))

/-- The two multiple-choice questions of the grading example. -/
def twoQuestions : List Question :=
  [{ id := "q1", type := "multiple_choice", correct_answer := some "A" },
   { id := "q2", type := "multiple_choice", correct_answer := some "B" }]

/-- One multiple-choice and one essay question. -/
def choiceAndEssay : List Question :=
  [{ id := "q1", type := "multiple_choice", correct_answer := some "A" },
   { id := "q2", type := "essay", correct_answer := none }]

/-- A short-answer question whose stored correct answer is the empty
string. -/
def emptyAnswerQuestion : Question :=
  { id := "q1", type := "short_answer", correct_answer := some "" }

/-- A submission fetched for the student at load time. -/
def priorSubmission : SubmissionRecord :=
  { student_id := "student-1"
    assessment_id := "assessment-1"
    answers := [("q1", "A"), ("q2", "B")]
    file_url := none
    grade := some (JsNumber.fin 100)
    submitted_at := "2023-11-14T22:00:00.000Z"
    time_taken := some 5 }

/-- A session that holds the prior submission. -/
def submittedSession : State :=
  { inProgress quizAssessment twoQuestions [("q1", "A"), ("q2", "B")] with
    submission := some priorSubmission }

/-- A session whose submit is in flight: the `submitting` flag is set. -/
def submittingSession : State :=
  { inProgress quizAssessment twoQuestions [("q1", "A")] with submitting := true }

/-- The component with its countdown running and nothing called yet. -/
def freshSession (s : State) : Session :=
  { state := s, mounted := true, calls := [], autoSubmits := 0 }

/-! ## Loading, starting and answering (lines 11-24, 42-104) -/

/-- The initial values of the `useState` cells for the route parameter
`assessmentId`. -/
def initialState (assessmentId : String) : State :=
  { assessmentId := assessmentId
    assessment := none
    questions := []
    answers := []
    submission := none
    timeRemaining := none
    file := none
    loading := true
    submitting := false
    started := false
    startTime := none }

/-- What the services answer during one run of `fetchAssessment`: the
signed-in user and the `data` of the three reads.  `assessment` is
`none` when the read reports an error; `questions` and `submission` are
`none` when `data` is null, which is the case when the read fails and,
for `submission`, also when no row exists (`.single()`).  A null
`answers` column of the submission row is represented by the empty
answer set, as `submissionData.answers || {}` reads it. -/
structure FetchEnv where
  user : Option String
  assessment : Option Assessment
  questions : Option (List Question)
  submission : Option SubmissionRecord
deriving DecidableEq

/-- `fetchAssessment` run to completion from the state `s`: the state
after its setter calls, and the toast it shows. -/
def fetchAssessment (s : State) (env : FetchEnv) : State × List Effect :=
  match env.user with
  | none => ({ s with loading := false }, [])
  | some _ =>
    match env.assessment with
    | none =>
      ({ s with loading := false }, [Effect.toastError "Failed to load assessment"])
    | some assessmentData =>
      let loaded :=
        match env.submission with
        | some submissionData =>
          { s with
            submission := some submissionData
            answers := submissionData.answers
            started := true }
        | none => s
      ({ loaded with
          assessment := some assessmentData
          questions := env.questions.getD []
          loading := false }, [])

/-- `startAssessment` at clock reading `now`.  Reading
`assessment.time_limit` of a null assessment throws after the two
setters have been called. -/
def startAssessment (s : State) (now : ℤ) : State :=
  let begun := { s with started := true, startTime := some now }
  match s.assessment with
  | none => begun
  | some assessment =>
    match assessment.time_limit with
    | none => begun
    | some limit =>
      if limit = 0 then begun else { begun with timeRemaining := some (limit : ℤ) }

/-- The object `{ ...answers, [id]: value }`: the entry of `id` is
replaced where it stands, or added at the end. -/
def AnswerSet.set (answers : AnswerSet) (id value : String) : AnswerSet :=
  match answers with
  | [] => [(id, value)]
  | (key, old) :: rest =>
    if key = id then (id, value) :: rest
    else (key, old) :: AnswerSet.set rest id value

/-- `handleAnswerChange(questionId, value)`. -/
def handleAnswerChange (s : State) (questionId value : String) : State :=
  { s with answers := s.answers.set questionId value }

/-- `handleFileChange`: `e.target.files[0]`, `none` when the selection
is empty. -/
def handleFileChange (s : State) (chosen : Option File) : State :=
  { s with file := chosen }

/-! ## View selection (lines 172-454) -/

/-- The five return branches of the component. -/
inductive View where
  | loading
  | notFound
  | review
  | notStarted
  | inProgress
deriving DecidableEq

/-- The branch the component returns for the state `s`. -/
def view (s : State) : View :=
  if s.loading then View.loading
  else
    match s.assessment with
    | none => View.notFound
    | some assessment =>
      if s.submission.isSome && assessment.type = "quiz" then View.review
      else if !s.started then View.notStarted
      else View.inProgress

/-- Whether the branch renders the Start Assessment button. -/
def View.startButton (v : View) : Bool :=
  match v with
  | View.notStarted => true
  | _ => false

/-- Whether the branch renders the Submit Assessment button. -/
def View.submitButton (v : View) : Bool :=
  match v with
  | View.inProgress => true
  | _ => false

/-- Whether the branch renders the editable form (answer inputs or the
file input). -/
def View.editableForm (v : View) : Bool :=
  match v with
  | View.inProgress => true
  | _ => false

/-- Whether the state renders the answer inputs: the in-progress
branch of a quiz (line 331). -/
def rendersAnswerInputs (s : State) : Bool :=
  match s.assessment with
  | none => false
  | some assessment => view s = View.inProgress && assessment.type = "quiz"

/-- Whether the state renders the file input: the in-progress branch of
an assessment that is not a quiz. -/
def rendersFileInput (s : State) : Bool :=
  match s.assessment with
  | none => false
  | some assessment => view s = View.inProgress && assessment.type ≠ "quiz"

/-! ## Events of the rendered page -/

/-- What the student can do on the page: click Start Assessment, change
the input of a question, choose a file, click Submit Assessment. -/
inductive Event where
  | start (now : ℤ)
  | answer (question : Question) (value : String)
  | chooseFile (chosen : Option File)
  | submit (env : SubmitEnv)

/-- Whether the control of the event is rendered and usable in the state
`s`.  Every question of a quiz is taken to render an input, and an input
to deliver any string. -/
def Event.enabled (s : State) (e : Event) : Bool :=
  match e with
  | Event.start _ => (view s).startButton
  | Event.answer question _ => rendersAnswerInputs s && decide (question ∈ s.questions)
  | Event.chooseFile _ => rendersFileInput s
  | Event.submit _ => (view s).submitButton && !s.submitting

/-- The state after the handler of the event has run. -/
def Event.apply (s : State) (e : Event) : State :=
  match e with
  | Event.start now => startAssessment s now
  | Event.answer question value => handleAnswerChange s question.id value
  | Event.chooseFile chosen => handleFileChange s chosen
  | Event.submit env => (handleSubmit s env false).1

/-- The calls the handler of the event makes. -/
def Event.calls (s : State) (e : Event) : List Effect :=
  match e with
  | Event.submit env => (handleSubmit s env false).2
  | _ => []

/-- The values the countdown effect depends on:
`[started, assessment, startTime]`. -/
def effectDeps (s : State) : Bool × Option Assessment × Option ℤ :=
  (s.started, s.assessment, s.startTime)

/-- A mounted page: the running session and the render in which the
countdown effect last ran.  The interval callback and the
`handleSubmit` it calls belong to that render. -/
structure Page where
  sess : Session
  closure : State

/-- The page after mounting and `fetchAssessment`. -/
def Page.load (assessmentId : String) (env : FetchEnv) : Page :=
  { sess := freshSession (fetchAssessment (initialState assessmentId) env).1
    closure := (fetchAssessment (initialState assessmentId) env).1 }

/-- The page after an event.  React re-runs the countdown effect, and so
replaces the interval and its closure, only when a dependency changed. -/
def Page.dispatch (p : Page) (e : Event) : Page :=
  if p.sess.mounted && e.enabled p.sess.state then
    let next := e.apply p.sess.state
    { sess :=
        { state := next
          mounted := !navigatesAway (e.calls p.sess.state)
          calls := p.sess.calls ++ e.calls p.sess.state
          autoSubmits := p.sess.autoSubmits }
      closure := if effectDeps next = effectDeps p.sess.state then p.closure else next }
  else p

/-- The page after a firing of the interval: the callback of the closure
runs; it changes no dependency of the effect. -/
def Page.tick (p : Page) (now : ℤ) (env : SubmitEnv) : Page :=
  { p with sess := Session.tick p.closure p.sess now env }

/-- The answer set references only identifiers of the session's
questions. -/
def answersWithinQuestions (s : State) : Prop :=
  ∀ entry ∈ s.answers, entry.1 ∈ s.questions.map fun question => question.id

/-! ## Concrete loads and submits used in the evaluations below -/

/-- An assignment session with a selected file. -/
def assignmentWithFile : State :=
  { inProgress assignmentAssessment [] [] with file := some { name := "essay.final.pdf" } }

/-- Services whose storage upload reports an error. -/
def failingUploadEnv : SubmitEnv := { okEnv with uploadError := true }

/-- Services whose upload succeeds but whose `createSignedUrl` returns
no data. -/
def noSignedUrlEnv : SubmitEnv := { okEnv with signedUrl := none }

/-- A submission of the assignment fetched at load time. -/
def priorAssignmentSubmission : SubmissionRecord :=
  { student_id := "student-1"
    assessment_id := "assessment-1"
    answers := []
    file_url := some "https://storage.example/signed"
    grade := none
    submitted_at := "2023-11-14T22:00:00.000Z"
    time_taken := some 5 }

/-- The three reads succeed for the timed quiz; no submission exists. -/
def quizFetch : FetchEnv :=
  { user := some "student-1"
    assessment := some quizAssessment
    questions := some twoQuestions
    submission := none }

/-- The reads return the quiz and the student's prior submission. -/
def submittedQuizFetch : FetchEnv := { quizFetch with submission := some priorSubmission }

/-- The reads return the assignment and the student's prior submission
of it. -/
def submittedAssignmentFetch : FetchEnv :=
  { user := some "student-1"
    assessment := some assignmentAssessment
    questions := some []
    submission := some priorAssignmentSubmission }

/-- The prior submission answers `q1` and `q2`, but the questions read
now returns only `q1`. -/
def shrunkQuizFetch : FetchEnv :=
  { submittedQuizFetch with
    questions := some [{ id := "q1", type := "multiple_choice", correct_answer := some "A" }] }

/-- The assessment read succeeds, the questions read fails (`data` is
null) and no submission is returned. -/
def failedQuestionsFetch : FetchEnv := { quizFetch with questions := none }

/-- The assessment read fails. -/
def failedAssessmentFetch : FetchEnv := { quizFetch with assessment := none }

/-- The timed quiz loaded and started at `1700000000000` ms. -/
def startedPage : Page :=
  (Page.load "assessment-1" quizFetch).dispatch (Event.start 1700000000000)

/-- The started quiz after the student answered `q1` with `A` and `q2`
with `B`. -/
def answeredPage : Page :=
  (startedPage.dispatch
    (Event.answer { id := "q1", type := "multiple_choice", correct_answer := some "A" } "A")).dispatch
    (Event.answer { id := "q2", type := "multiple_choice", correct_answer := some "B" } "B")

/-! ## The review view (lines 211-213) -/

/-- The flag `isCorrect` of the review view:
`question.correct_answer && userAnswer === question.correct_answer`,
with `userAnswer = answers[question.id]`. -/
def reviewIsCorrect (answers : AnswerSet) (question : Question) : Bool :=
  truthy question.correct_answer &&
    strictEq (answers.get question.id) question.correct_answer

/-! ## Runs of the page -/

/-- What happens next on a mounted page: an event of the student, or a
firing of the interval. -/
inductive Step where
  | event (e : Event)
  | tick (now : ℤ) (env : SubmitEnv)

/-- The page after one step. -/
def Page.step (p : Page) (step : Step) : Page :=
  match step with
  | Step.event e => p.dispatch e
  | Step.tick now env => p.tick now env

/-- The page after a sequence of steps. -/
def Page.run (p : Page) (steps : List Step) : Page :=
  steps.foldl Page.step p

/-- A quiz whose `time_limit` column holds 0. -/
def zeroLimitQuiz : Assessment := { type := "quiz", time_limit := some 0 }

/-- The three reads succeed for the quiz with limit 0. -/
def zeroLimitFetch : FetchEnv := { quizFetch with assessment := some zeroLimitQuiz }

end AssessmentDetail

namespace Assessments

/-! ## The assessment list (`src/pages/Assessments.jsx`, lines 47-78) -/

/-- A row of `assessmentsData`.  `dueTime` is the time value of
`new Date(assessment.due_date)` in milliseconds, `none` for an invalid
date; a null `due_date` gives the epoch, `0`. -/
structure AssessmentRow where
  id : String
  dueTime : Option ℤ
deriving DecidableEq

/-- A row of `submissions` (`assessment_id, grade, submitted_at`). -/
structure SubmissionRow where
  assessment_id : String
  grade : Option ℤ
  submitted_at : String
deriving DecidableEq

/-- `submissionsMap.get(id)` for the map built from
`submissions?.map((s) => [s.assessment_id, s]) || []`: the last row with
that `assessment_id`, `none` (undefined) when there is none or when
`submissions` is null. -/
def submissionsMapGet (submissions : Option (List SubmissionRow)) (id : String) :
    Option SubmissionRow :=
  ((submissions.getD []).reverse).find? fun s => s.assessment_id = id

/-- An element of `assessmentsWithStatus`. -/
structure AssessmentWithStatus where
  row : AssessmentRow
  submission : Option SubmissionRow
  isOverdue : Bool
  isCompleted : Bool
  status : String
deriving DecidableEq

/-- The comparison `dueDate < now` of two dates: false when `dueDate`
is invalid. -/
def dateLt (dueTime : Option ℤ) (now : ℤ) : Bool :=
  match dueTime with
  | none => false
  | some t => decide (t < now)

/-- The callback of `assessmentsData.map`, with `now` the reading of
`new Date()` in it. -/
def withStatus (submissions : Option (List SubmissionRow)) (now : ℤ)
    (assessment : AssessmentRow) : AssessmentWithStatus :=
  let submission := submissionsMapGet submissions assessment.id
  let isOverdue := dateLt assessment.dueTime now && !submission.isSome
  let isCompleted := submission.isSome
  { row := assessment
    submission := submission
    isOverdue := isOverdue
    isCompleted := isCompleted
    status := if isCompleted then "completed" else if isOverdue then "overdue" else "pending" }

/-- The list `assessmentsWithStatus`; `clock i` is the reading of
`new Date()` in the callback for the element at index `i`. -/
def assessmentsWithStatus (submissions : Option (List SubmissionRow)) (clock : ℕ → ℤ)
    (assessmentsData : List AssessmentRow) : List AssessmentWithStatus :=
  assessmentsData.enum.map fun entry => withStatus submissions (clock entry.1) entry.2

/-- The list `filteredAssessments` for the selected `filter`. -/
def filteredAssessments (filter : String) (assessments : List AssessmentWithStatus) :
    List AssessmentWithStatus :=
  if filter = "all" then assessments
  else assessments.filter fun a => a.status = filter

/-- Three assessments: one submitted, one past due, one due later. -/
def sampleRows : List AssessmentRow :=
  [{ id := "a1", dueTime := some 1699000000000 },
   { id := "a2", dueTime := some 1699500000000 },
   { id := "a3", dueTime := some 1800000000000 }]

/-- The student's submission of `a1`. -/
def sampleSubmissions : Option (List SubmissionRow) :=
  some [{ assessment_id := "a1", grade := some 100, submitted_at := "2023-11-01T10:00:00.000Z" }]

end Assessments

namespace AssessmentDetail

/-! ## Rounding and the binary exponent -/

theorem roundHalfEven_le (t : ℚ) : (roundHalfEven t : ℚ) ≤ t + 1 / 2 := by
  have h1 := Int.floor_le t
  have h2 := Int.lt_floor_add_one t
  unfold roundHalfEven
  simp only
  split_ifs with a b c
  · linarith
  · push_cast; linarith
  · linarith
  · push_cast; linarith

theorem le_roundHalfEven (t : ℚ) : t - 1 / 2 ≤ (roundHalfEven t : ℚ) := by
  have h1 := Int.floor_le t
  have h2 := Int.lt_floor_add_one t
  unfold roundHalfEven
  simp only
  split_ifs with a b c
  · linarith
  · push_cast; linarith
  · linarith
  · push_cast; linarith

theorem roundHalfEven_intCast (n : ℤ) : roundHalfEven (n : ℚ) = n := by
  unfold roundHalfEven
  simp

/-- Rounding does not cross an integer from below. -/
theorem roundHalfEven_le_of_le {t : ℚ} {m : ℤ} (h : t ≤ m) : roundHalfEven t ≤ m := by
  have h1 := roundHalfEven_le t
  have : (roundHalfEven t : ℚ) < (m : ℚ) + 1 := by linarith
  have : roundHalfEven t < m + 1 := by exact_mod_cast this
  omega

theorem le_roundHalfEven_of_le {t : ℚ} {m : ℤ} (h : (m : ℚ) ≤ t) : m ≤ roundHalfEven t := by
  have h1 := le_roundHalfEven t
  have : (m : ℚ) - 1 < (roundHalfEven t : ℚ) := by linarith
  have : m - 1 < roundHalfEven t := by exact_mod_cast this
  omega

theorem abs_eq_natAbs_div_den (x : ℚ) : |x| = (x.num.natAbs : ℚ) / (x.den : ℚ) := by
  conv_lhs => rw [← Rat.num_div_den x]
  rw [abs_div, Nat.abs_cast, Nat.cast_natAbs, Int.cast_abs]

theorem log2Aux_eq (fuel n : ℕ) (h : n ≤ fuel) : log2Aux fuel n = Nat.log 2 n := by
  induction fuel generalizing n with
  | zero =>
    have : n = 0 := by omega
    subst this
    simp [log2Aux]
  | succ fuel ih =>
    unfold log2Aux
    split_ifs with h2
    · rw [ih (n / 2) (by omega), Nat.log_of_one_lt_of_le (by norm_num) h2]
    · rw [Nat.log_of_lt (by omega)]

theorem natLog2_eq (n : ℕ) : natLog2 n = Nat.log 2 n := log2Aux_eq n n le_rfl

theorem natLog2_self_le {n : ℕ} (h : n ≠ 0) : 2 ^ natLog2 n ≤ n := by
  rw [natLog2_eq]; exact Nat.pow_log_le_self 2 h

theorem lt_natLog2_self (n : ℕ) : n < 2 ^ (natLog2 n + 1) := by
  rw [natLog2_eq]; exact Nat.lt_pow_succ_log_self (by norm_num) n

theorem zpow_ilog2_le {x : ℚ} (hx : x ≠ 0) : (2 : ℚ) ^ ilog2 x ≤ |x| := by
  unfold ilog2
  simp only
  split_ifs with h
  · exact h
  · have ha : x.num.natAbs ≠ 0 := by simpa using hx
    have h1 : ((2 ^ natLog2 x.num.natAbs : ℕ) : ℚ) ≤ x.num.natAbs := by
      exact_mod_cast natLog2_self_le ha
    have h2 : ((x.den : ℕ) : ℚ) < ((2 ^ (natLog2 x.den + 1) : ℕ) : ℚ) := by
      exact_mod_cast lt_natLog2_self _
    have hd : (0 : ℚ) < x.den := by exact_mod_cast x.den_pos
    rw [abs_eq_natAbs_div_den, le_div_iff₀ hd]
    push_cast at h1 h2
    have e : (2 : ℚ) ^ ((natLog2 x.num.natAbs : ℤ) - (natLog2 x.den : ℤ) - 1)
        = 2 ^ (natLog2 x.num.natAbs) / 2 ^ (natLog2 x.den + 1) := by
      rw [sub_sub, zpow_sub₀ (by norm_num)]
      norm_cast
    rw [e, div_mul_eq_mul_div, div_le_iff₀ (by positivity)]
    have hp : (0 : ℚ) < 2 ^ natLog2 x.num.natAbs := by positivity
    nlinarith

theorem lt_zpow_ilog2 {x : ℚ} (hx : x ≠ 0) : |x| < (2 : ℚ) ^ (ilog2 x + 1) := by
  unfold ilog2
  simp only
  split_ifs with h
  · have hb : x.den ≠ 0 := x.den_nz
    have h1 : ((2 ^ natLog2 x.den : ℕ) : ℚ) ≤ x.den := by
      exact_mod_cast natLog2_self_le hb
    have h2 : ((x.num.natAbs : ℕ) : ℚ) < ((2 ^ (natLog2 x.num.natAbs + 1) : ℕ) : ℚ) := by
      exact_mod_cast lt_natLog2_self _
    have hd : (0 : ℚ) < x.den := by exact_mod_cast x.den_pos
    rw [abs_eq_natAbs_div_den, div_lt_iff₀ hd]
    push_cast at h1 h2
    have e : (2 : ℚ) ^ ((natLog2 x.num.natAbs : ℤ) - (natLog2 x.den : ℤ) + 1)
        = 2 ^ (natLog2 x.num.natAbs + 1) / 2 ^ (natLog2 x.den) := by
      rw [sub_add_eq_add_sub, zpow_sub₀ (by norm_num)]
      norm_cast
    rw [e, div_mul_eq_mul_div, lt_div_iff₀ (by positivity)]
    have hp : (0 : ℚ) < 2 ^ natLog2 x.den := by positivity
    have hn : (0 : ℚ) ≤ x.num.natAbs := by positivity
    nlinarith
  · simpa using not_le.mp h

/-! ## Properties of binary64 rounding -/

theorem fl_zero : fl 0 = 0 := by simp [fl]

/-- The spacing of binary64 values around a non-zero `x`. -/
theorem fl_eq (x : ℚ) (hx : x ≠ 0) :
    fl x = (roundHalfEven (x / (2 : ℚ) ^ (max (ilog2 x) (-1022) - 52)) : ℚ) *
      (2 : ℚ) ^ (max (ilog2 x) (-1022) - 52) := by
  simp [fl, hx]

theorem fl_le_of_le_mul {x : ℚ} (hx : x ≠ 0) (m : ℤ)
    (h : x ≤ (m : ℚ) * (2 : ℚ) ^ (max (ilog2 x) (-1022) - 52)) :
    fl x ≤ (m : ℚ) * (2 : ℚ) ^ (max (ilog2 x) (-1022) - 52) := by
  rw [fl_eq x hx]
  have hq : (0 : ℚ) < (2 : ℚ) ^ (max (ilog2 x) (-1022) - 52) := by positivity
  have : x / (2 : ℚ) ^ (max (ilog2 x) (-1022) - 52) ≤ (m : ℚ) := by
    rw [div_le_iff₀ hq]; exact h
  have h2 : (roundHalfEven (x / (2 : ℚ) ^ (max (ilog2 x) (-1022) - 52)) : ℚ) ≤ (m : ℚ) := by
    exact_mod_cast roundHalfEven_le_of_le this
  exact mul_le_mul_of_nonneg_right h2 hq.le

theorem le_fl_of_mul_le {x : ℚ} (hx : x ≠ 0) (m : ℤ)
    (h : (m : ℚ) * (2 : ℚ) ^ (max (ilog2 x) (-1022) - 52) ≤ x) :
    (m : ℚ) * (2 : ℚ) ^ (max (ilog2 x) (-1022) - 52) ≤ fl x := by
  rw [fl_eq x hx]
  have hq : (0 : ℚ) < (2 : ℚ) ^ (max (ilog2 x) (-1022) - 52) := by positivity
  have : (m : ℚ) ≤ x / (2 : ℚ) ^ (max (ilog2 x) (-1022) - 52) := by
    rw [le_div_iff₀ hq]; exact h
  have h2 : (m : ℚ) ≤ (roundHalfEven (x / (2 : ℚ) ^ (max (ilog2 x) (-1022) - 52)) : ℚ) := by
    exact_mod_cast le_roundHalfEven_of_le this
  exact mul_le_mul_of_nonneg_right h2 hq.le

theorem fl_nonneg {x : ℚ} (h : 0 ≤ x) : 0 ≤ fl x := by
  rcases eq_or_ne x 0 with rfl | hx
  · simp [fl_zero]
  · have := le_fl_of_mul_le hx 0 (by simpa using h)
    simpa using this

/-- The exponent used for `x` is at most 52 when `|x| < 2 ^ 53`. -/
theorem exponent_le {x : ℚ} (hx : x ≠ 0) (h : |x| < 2 ^ 53) :
    max (ilog2 x) (-1022) ≤ 52 := by
  have h1 := zpow_ilog2_le hx
  have h2 : (2 : ℚ) ^ ilog2 x < (2 : ℚ) ^ (53 : ℤ) := by
    calc (2 : ℚ) ^ ilog2 x ≤ |x| := h1
      _ < 2 ^ 53 := h
      _ = (2 : ℚ) ^ (53 : ℤ) := by norm_cast
  have h3 : ilog2 x < 53 := (zpow_lt_zpow_iff_right₀ (by norm_num)).mp h2
  omega

/-- A natural number below `2 ^ 53` is a multiple of the spacing used for
any `x` with `|x| < 2 ^ 53`. -/
theorem natCast_eq_mul {x : ℚ} (hx : x ≠ 0) (h : |x| < 2 ^ 53) (K : ℤ) :
    ∃ m : ℤ, (K : ℚ) = (m : ℚ) * (2 : ℚ) ^ (max (ilog2 x) (-1022) - 52) := by
  have he := exponent_le hx h
  refine ⟨K * 2 ^ (52 - max (ilog2 x) (-1022)).toNat, ?_⟩
  have e : (2 : ℚ) ^ (max (ilog2 x) (-1022) - 52)
      = ((2 : ℚ) ^ (52 - max (ilog2 x) (-1022)).toNat)⁻¹ := by
    rw [← zpow_natCast, ← zpow_neg]
    congr 1
    omega
  rw [e]
  push_cast
  field_simp

theorem fl_le_intCast {x : ℚ} (K : ℤ) (hK : (K : ℚ) < 2 ^ 53) (h0 : 0 ≤ x) (h : x ≤ K) :
    fl x ≤ K := by
  rcases eq_or_ne x 0 with rfl | hx
  · rw [fl_zero]; exact h
  · have hb : |x| < 2 ^ 53 := by rw [abs_of_nonneg h0]; linarith
    obtain ⟨m, hm⟩ := natCast_eq_mul hx hb K
    rw [hm]
    exact fl_le_of_le_mul hx m (hm ▸ h)

theorem fl_intCast (n : ℤ) (h : |(n : ℚ)| < 2 ^ 53) : fl (n : ℚ) = n := by
  rcases eq_or_ne (n : ℚ) 0 with h0 | hx
  · rw [h0, fl_zero]
  · obtain ⟨m, hm⟩ := natCast_eq_mul hx h n
    apply le_antisymm
    · conv_rhs => rw [hm]
      exact fl_le_of_le_mul hx m hm.le
    · conv_lhs => rw [hm]
      exact le_fl_of_mul_le hx m hm.ge

theorem abs_fl_sub_le {x : ℚ} (hx : (2 : ℚ) ^ (-1022 : ℤ) ≤ |x|) :
    |fl x - x| ≤ |x| / 2 ^ 53 := by
  have hpos : (0 : ℚ) < (2 : ℚ) ^ (-1022 : ℤ) := by positivity
  have hne : x ≠ 0 := by
    intro h0; rw [h0, abs_zero] at hx; linarith
  have h1 := zpow_ilog2_le hne
  have h2 := lt_zpow_ilog2 hne
  have h3 : (-1022 : ℤ) < ilog2 x + 1 :=
    (zpow_lt_zpow_iff_right₀ (by norm_num : (1 : ℚ) < 2)).mp (lt_of_le_of_lt hx h2)
  have he : max (ilog2 x) (-1022) = ilog2 x := by omega
  rw [fl_eq x hne, he]
  set q : ℚ := (2 : ℚ) ^ (ilog2 x - 52) with hq
  have hqpos : 0 < q := by positivity
  have hr1 := roundHalfEven_le (x / q)
  have hr2 := le_roundHalfEven (x / q)
  have hxq : x / q * q = x := by field_simp
  have e : (roundHalfEven (x / q) : ℚ) * q - x = ((roundHalfEven (x / q) : ℚ) - x / q) * q := by
    rw [sub_mul, hxq]
  have hq2 : q = (2 : ℚ) ^ ilog2 x / 2 ^ 52 := by
    rw [hq, zpow_sub₀ (by norm_num)]; norm_cast
  rw [e, abs_mul, abs_of_pos hqpos]
  have ha : |(roundHalfEven (x / q) : ℚ) - x / q| ≤ 1 / 2 := by
    rw [abs_le]; constructor <;> linarith
  calc |(roundHalfEven (x / q) : ℚ) - x / q| * q ≤ 1 / 2 * q :=
        mul_le_mul_of_nonneg_right ha hqpos.le
    _ = (2 : ℚ) ^ ilog2 x / 2 ^ 53 := by rw [hq2]; ring
    _ ≤ |x| / 2 ^ 53 := by
        apply div_le_div_of_nonneg_right h1 (by positivity)

/-! ## Elapsed minutes -/

theorem tiny_le : (2 : ℚ) ^ (-1022 : ℤ) ≤ 1 / 2 ^ 20 := by
  have h : (2 : ℚ) ^ (-1022 : ℤ) ≤ (2 : ℚ) ^ (-20 : ℤ) :=
    zpow_le_zpow_right₀ (by norm_num) (by norm_num)
  calc (2 : ℚ) ^ (-1022 : ℤ) ≤ (2 : ℚ) ^ (-20 : ℤ) := h
    _ = 1 / 2 ^ 20 := by rw [zpow_neg]; norm_num

/-- Two rounded divisions of a non-zero integer stay within `1 / 60000`
of the exact quotient by `60000`. -/
theorem div_div_close (d : ℤ) (hd : d ≠ 0) (h : |(d : ℚ)| < 2 ^ 51) :
    |fl (fl ((d : ℚ) / 1000) / 60) - (d : ℚ) / 60000| < 1 / 60000 := by
  have hd1 : (1 : ℚ) ≤ |(d : ℚ)| := by
    have : (1 : ℤ) ≤ |d| := Int.one_le_abs hd
    exact_mod_cast this
  have hx : |(d : ℚ) / 1000| = |(d : ℚ)| / 1000 := by
    rw [abs_div]; norm_num
  have h1 : (2 : ℚ) ^ (-1022 : ℤ) ≤ |(d : ℚ) / 1000| := by
    rw [hx]
    have := tiny_le
    norm_num at this ⊢
    linarith
  have e1 := abs_fl_sub_le h1
  rw [hx] at e1
  set y1 := fl ((d : ℚ) / 1000) with hy1
  have e1b : |y1 - (d : ℚ) / 1000| < 1 / 4000 := by
    have : |(d : ℚ)| / 1000 / 2 ^ 53 < 1 / 4000 := by
      norm_num at h ⊢
      linarith
    linarith
  have hy1lo : |(d : ℚ)| / 1000 - 1 / 4000 < |y1| := by
    have := abs_sub_abs_le_abs_sub ((d : ℚ) / 1000) y1
    rw [hx, abs_sub_comm] at this
    linarith
  have hy1hi : |y1| < |(d : ℚ)| / 1000 + 1 / 4000 := by
    have := abs_sub_abs_le_abs_sub y1 ((d : ℚ) / 1000)
    rw [hx] at this
    linarith
  have hy : |y1 / 60| = |y1| / 60 := by
    rw [abs_div]; norm_num
  have h2 : (2 : ℚ) ^ (-1022 : ℤ) ≤ |y1 / 60| := by
    rw [hy]
    have := tiny_le
    norm_num at this ⊢
    linarith
  have e2 := abs_fl_sub_le h2
  rw [hy] at e2
  have e3 : fl (y1 / 60) - (d : ℚ) / 60000
      = (fl (y1 / 60) - y1 / 60) + (y1 - (d : ℚ) / 1000) / 60 := by ring
  rw [e3]
  have e4 : |(y1 - (d : ℚ) / 1000) / 60| < 1 / 240000 := by
    rw [abs_div]
    norm_num
    linarith
  have e5 : |fl (y1 / 60) - y1 / 60| < 1 / 200000 := by
    have : |y1| / 60 / 2 ^ 53 < 1 / 200000 := by
      norm_num at h hy1hi ⊢
      linarith
    linarith
  calc |fl (y1 / 60) - y1 / 60 + (y1 - (d : ℚ) / 1000) / 60|
      ≤ |fl (y1 / 60) - y1 / 60| + |(y1 - (d : ℚ) / 1000) / 60| := abs_add _ _
    _ < 1 / 60000 := by linarith

theorem elapsedMinutes_eq (now startTime : ℤ) (h : |now - startTime| < 2 ^ 51) :
    elapsedMinutes now startTime = ⌊((now - startTime : ℤ) : ℚ) / 60000⌋ := by
  unfold elapsedMinutes
  have hq : |((now - startTime : ℤ) : ℚ)| < 2 ^ 51 := by exact_mod_cast h
  have c : (now : ℚ) - (startTime : ℚ) = ((now - startTime : ℤ) : ℚ) := by push_cast; ring
  rw [c]
  generalize now - startTime = d at h hq
  have hd53 : |(d : ℚ)| < 2 ^ 53 := by
    norm_num at hq ⊢; linarith
  rw [fl_intCast d hd53]
  rcases eq_or_ne d 0 with rfl | hd
  · simp [fl_zero]
  · have hdiv := Int.emod_add_ediv d 60000
    have hr0 := Int.emod_nonneg d (by norm_num : (60000 : ℤ) ≠ 0)
    have hr1 := Int.emod_lt_of_pos d (by norm_num : (0 : ℤ) < 60000)
    set k := d / 60000 with hk
    set r := d % 60000 with hr
    have hX : (d : ℚ) / 60000 = (k : ℚ) + (r : ℚ) / 60000 := by
      have : (d : ℚ) = (r : ℚ) + 60000 * (k : ℚ) := by exact_mod_cast hdiv.symm
      rw [this]; ring
    have hfloor : ⌊(d : ℚ) / 60000⌋ = k := by
      rw [Int.floor_eq_iff, hX]
      have a0 : (0 : ℚ) ≤ r := by exact_mod_cast hr0
      have a1 : (r : ℚ) < 60000 := by exact_mod_cast hr1
      constructor
      · have : (0 : ℚ) ≤ (r : ℚ) / 60000 := by positivity
        linarith
      · have : (r : ℚ) / 60000 < 1 := by rw [div_lt_one (by norm_num)]; exact a1
        linarith
    rw [hfloor]
    rcases eq_or_ne r 0 with hz | hnz
    · have hdk : d = 60000 * k := by omega
      have hk53 : |((60 * k : ℤ) : ℚ)| < 2 ^ 53 := by
        have : |(d : ℚ)| = 1000 * |((60 * k : ℤ) : ℚ)| := by
          rw [hdk]; push_cast
          rw [show (60000 : ℚ) * k = 1000 * (60 * k) by ring, abs_mul]; norm_num
        rw [this] at hd53
        have := abs_nonneg ((60 * k : ℤ) : ℚ)
        linarith
      have hkk : |(k : ℚ)| < 2 ^ 53 := by
        have : |((60 * k : ℤ) : ℚ)| = 60 * |(k : ℚ)| := by
          push_cast; rw [abs_mul]; norm_num
        rw [this] at hk53
        have := abs_nonneg (k : ℚ)
        linarith
      have s1 : (d : ℚ) / 1000 = ((60 * k : ℤ) : ℚ) := by
        rw [hdk]; push_cast; ring
      have s2 : ((60 * k : ℤ) : ℚ) / 60 = (k : ℚ) := by push_cast; ring
      rw [s1, fl_intCast _ hk53, s2, fl_intCast _ hkk, Int.floor_intCast]
    · have hclose := div_div_close d hd hq
      rw [abs_lt] at hclose
      have a0 : (1 : ℚ) ≤ r := by
        have : (1 : ℤ) ≤ r := by omega
        exact_mod_cast this
      have a1 : (r : ℚ) ≤ 59999 := by
        have : r ≤ 59999 := by omega
        exact_mod_cast this
      rw [Int.floor_eq_iff]
      rw [hX] at hclose
      constructor <;> linarith [hclose.1, hclose.2]

/-! ## The percentage -/

theorem correctCount_foldl (answers : AnswerSet) (questions : List Question) (acc : ℕ) :
    questions.foldl (fun correct question =>
      if isCorrect answers question then correct + 1 else correct) acc
      = acc + questions.countP (isCorrect answers) := by
  induction questions generalizing acc with
  | nil => simp
  | cons q qs ih =>
    rw [List.foldl_cons, ih, List.countP_cons]
    split_ifs with h <;> omega

theorem correctCount_eq_countP (questions : List Question) (answers : AnswerSet) :
    correctCount questions answers = questions.countP (isCorrect answers) := by
  unfold correctCount
  rw [correctCount_foldl]; simp

theorem correctCount_le_length (questions : List Question) (answers : AnswerSet) :
    correctCount questions answers ≤ questions.length := by
  rw [correctCount_eq_countP]; exact List.countP_le_length _

theorem percentage_eq {correct length : ℕ} (h : length ≠ 0) :
    percentage correct length
      = JsNumber.fin ((⌊fl (fl ((correct : ℚ) / (length : ℚ)) * 100) + 1 / 2⌋ : ℤ) : ℚ) := by
  simp [percentage, jsDiv, jsMul, Math.round, h]

theorem percentage_zero_zero : percentage 0 0 = JsNumber.nan := by
  simp [percentage, jsDiv, jsMul, Math.round]

theorem percentage_range {correct length : ℕ} (h : length ≠ 0) (hc : correct ≤ length) :
    ∃ g : ℤ, percentage correct length = JsNumber.fin (g : ℚ) ∧ 0 ≤ g ∧ g ≤ 100 := by
  refine ⟨_, percentage_eq h, ?_, ?_⟩
  · have hl : (0 : ℚ) < length := by exact_mod_cast Nat.pos_of_ne_zero h
    have h1 : 0 ≤ fl ((correct : ℚ) / (length : ℚ)) := fl_nonneg (by positivity)
    have h2 : 0 ≤ fl (fl ((correct : ℚ) / (length : ℚ)) * 100) := fl_nonneg (by positivity)
    apply Int.floor_nonneg.mpr
    linarith
  · have hl : (0 : ℚ) < length := by exact_mod_cast Nat.pos_of_ne_zero h
    have hq : (correct : ℚ) / (length : ℚ) ≤ ((1 : ℤ) : ℚ) := by
      rw [div_le_iff₀ hl]; push_cast; rw [one_mul]; exact_mod_cast hc
    have h1 : fl ((correct : ℚ) / (length : ℚ)) ≤ ((1 : ℤ) : ℚ) :=
      fl_le_intCast 1 (by norm_num) (by positivity) hq
    have h0 : 0 ≤ fl ((correct : ℚ) / (length : ℚ)) := fl_nonneg (by positivity)
    have h2 : fl (fl ((correct : ℚ) / (length : ℚ)) * 100) ≤ ((100 : ℤ) : ℚ) :=
      fl_le_intCast 100 (by norm_num) (by positivity) (by push_cast at h1 ⊢; linarith)
    have : ⌊fl (fl ((correct : ℚ) / (length : ℚ)) * 100) + 1 / 2⌋ < 101 := by
      rw [Int.floor_lt]; push_cast at h2 ⊢; linarith
    omega

theorem percentage_zero {length : ℕ} (h : length ≠ 0) :
    percentage 0 length = JsNumber.fin 0 := by
  rw [percentage_eq h]
  simp [fl_zero]
  norm_num

theorem fl_one : fl 1 = 1 := by
  have := fl_intCast 1 (by norm_num)
  simpa using this

theorem fl_hundred : fl 100 = 100 := by
  have := fl_intCast 100 (by norm_num)
  simpa using this

theorem percentage_self {length : ℕ} (h : length ≠ 0) :
    percentage length length = JsNumber.fin 100 := by
  rw [percentage_eq h]
  have hl : (length : ℚ) ≠ 0 := by exact_mod_cast h
  rw [div_self hl, fl_one, one_mul, fl_hundred]
  congr 1
  norm_cast
  rw [Int.floor_eq_iff]
  norm_num

theorem fl_23_40 : fl (23 / 40) = 2589569785738035 / 4503599627370496 := by decide!
theorem fl_23_40_100 : fl (2589569785738035 / 4503599627370496 * 100)
    = 8092405580431359 / 140737488355328 := by decide!

theorem percentage_23_40 : percentage 23 40 = JsNumber.fin 57 := by
  rw [percentage_eq (by norm_num)]
  have e : ((23 : ℕ) : ℚ) / ((40 : ℕ) : ℚ) = 23 / 40 := by norm_num
  rw [e, fl_23_40, fl_23_40_100]
  congr 1
  norm_cast
  rw [Int.floor_eq_iff]
  norm_num

theorem percentage_1_2 : percentage 1 2 = JsNumber.fin 50 := by
  rw [percentage_eq (by norm_num)]
  have e : ((1 : ℕ) : ℚ) / ((2 : ℕ) : ℚ) = 1 / 2 := by norm_num
  have f1 : fl (1 / 2) = 1 / 2 := by decide!
  have f2 : fl (1 / 2 * 100) = 50 := by decide!
  rw [e, f1, f2]
  congr 1
  norm_cast
  rw [Int.floor_eq_iff]
  norm_num

/-! ## What `handleSubmit` inserts -/

theorem insertCalls_append (xs ys : List Effect) :
    insertCalls (xs ++ ys) = insertCalls xs ++ insertCalls ys := by
  simp [insertCalls, List.filterMap_append]

theorem insertCalls_uploadPhase (s : State) (env : SubmitEnv) (user : String) :
    insertCalls (uploadPhase s env user).1 = [] := by
  unfold uploadPhase
  cases s.file with
  | none => simp [insertCalls]
  | some file =>
    cases s.assessment with
    | none => simp [insertCalls]
    | some assessment =>
      simp only
      split_ifs <;> simp [insertCalls]

/-- The insert calls of the `try` block: at most one, of the record built
from the state. -/
theorem insertCalls_tryBody (s : State) (env : SubmitEnv) :
    insertCalls (tryBody s env).1 = [] ∨
      ∃ user assessment fileUrl, env.user = some user ∧ s.assessment = some assessment ∧
        (uploadPhase s env user).2 = some fileUrl ∧
        insertCalls (tryBody s env).1 = [buildRecord s env user assessment fileUrl] := by
  unfold tryBody
  cases hu : env.user with
  | none => left; simp [insertCalls]
  | some user =>
    simp only
    have hup := insertCalls_uploadPhase s env user
    rcases hphase : uploadPhase s env user with ⟨calls, _ | fileUrl⟩
    · left; rw [hphase] at hup; simpa using hup
    · rw [hphase] at hup
      simp only at hup ⊢
      cases ha : s.assessment with
      | none => left; simpa using hup
      | some assessment =>
        right
        refine ⟨user, assessment, fileUrl, rfl, rfl, by rw [hphase], ?_⟩
        simp only
        split_ifs <;> simp [insertCalls_append, hup] <;> simp [insertCalls]

theorem insertCalls_handleSubmit (s : State) (env : SubmitEnv) (autoSubmit : Bool) :
    insertCalls (handleSubmit s env autoSubmit).2 =
      if s.submission.isSome && !autoSubmit then [] else insertCalls (tryBody s env).1 := by
  unfold handleSubmit
  split_ifs with h
  · simp [insertCalls]
  · simp only [insertCalls_append]
    have a : insertCalls [Effect.setSubmitting true] = [] := by simp [insertCalls]
    have b : insertCalls [Effect.setSubmitting false] = [] := by simp [insertCalls]
    have c : insertCalls (if (tryBody s env).2 = true
        then [Effect.toastError "Failed to submit assessment"] else []) = [] := by
      split_ifs <;> simp [insertCalls]
    rw [a, b, c]; simp

/-- Every record `handleSubmit` passes to `insert` is the record built
from the state it closed over, for the signed-in user. -/
theorem mem_insertCalls_handleSubmit {s : State} {env : SubmitEnv} {autoSubmit : Bool}
    {record : SubmissionRecord}
    (h : record ∈ insertCalls (handleSubmit s env autoSubmit).2) :
    ∃ user assessment fileUrl, env.user = some user ∧ s.assessment = some assessment ∧
      (uploadPhase s env user).2 = some fileUrl ∧
      record = buildRecord s env user assessment fileUrl := by
  rw [insertCalls_handleSubmit] at h
  split_ifs at h with hg
  · simp at h
  · rcases insertCalls_tryBody s env with h0 | ⟨user, assessment, fileUrl, hu, ha, hf, hr⟩
    · rw [h0] at h; simp at h
    · rw [hr] at h
      exact ⟨user, assessment, fileUrl, hu, ha, hf, by simpa using h⟩

/-- When the user is signed in, the assessment is loaded and no file is
selected, `handleSubmit` past its guard inserts exactly one record. -/
theorem insertCalls_handleSubmit_of_no_file (s : State) (env : SubmitEnv) (autoSubmit : Bool)
    (user : String) (assessment : Assessment)
    (hu : env.user = some user) (ha : s.assessment = some assessment) (hf : s.file = none)
    (hg : (s.submission.isSome && !autoSubmit) = false) :
    insertCalls (handleSubmit s env autoSubmit).2 = [buildRecord s env user assessment none] := by
  rw [insertCalls_handleSubmit, hg]
  simp only [Bool.false_eq_true, if_false]
  unfold tryBody uploadPhase
  rw [hu, hf, ha]
  simp only
  split_ifs <;> simp [insertCalls]

/-- The grade of every inserted record is the one computed from the
questions and answers of the state `handleSubmit` closed over. -/
theorem grade_of_mem_insertCalls {s : State} {env : SubmitEnv} {autoSubmit : Bool}
    {record : SubmissionRecord}
    (h : record ∈ insertCalls (handleSubmit s env autoSubmit).2) :
    ∃ assessment, s.assessment = some assessment ∧
      record.grade = computeGrade assessment s.questions s.answers := by
  obtain ⟨user, assessment, fileUrl, -, ha, -, hr⟩ := mem_insertCalls_handleSubmit h
  exact ⟨assessment, ha, by rw [hr]; rfl⟩

/-! ## Grading and submission: the claims -/

theorem round_23_40 : round ((100 * 23 : ℚ) / 40) = 58 := by
  rw [round_eq, Int.floor_eq_iff]; norm_num

/-- C1 (evaluation at the failing input).  A quiz of forty questions, each
with correct answer `A`, of which twenty-three are answered `A` and the
rest are unanswered: the loop counts 23, `handleSubmit` inserts one
record and its grade is 57, while `100 * 23 / 40` is exactly 57.5 and
rounds to 58 (ties upwards or ties to even alike).  In binary64 the
rounded quotient `23 / 40` times `100` falls just below 57.5. -/
theorem handleSubmit_grade_23_of_40 :
    fortyQuestions.length = 40 ∧
    (∀ q ∈ fortyQuestions, q.correct_answer = some "A") ∧
    fortyQuestions.countP (fun q => twentyThreeAnswers.get q.id == some "A") = 23 ∧
    correctCount fortyQuestions twentyThreeAnswers = 23 ∧
    (insertCalls (handleSubmit (inProgress quizAssessment fortyQuestions twentyThreeAnswers)
        okEnv false).2).map (fun r => r.grade) = [some (JsNumber.fin 57)] ∧
    (100 * 23 : ℚ) / 40 = 115 / 2 ∧
    round ((100 * 23 : ℚ) / 40) = 58 ∧
    roundHalfEven ((100 * 23 : ℚ) / 40) = 58 := by
  have hc : correctCount fortyQuestions twentyThreeAnswers = 23 := by decide
  have hl : fortyQuestions.length = 40 := by decide
  refine ⟨hl, by decide, by decide, hc, ?_, by norm_num, round_23_40, by decide!⟩
  rw [insertCalls_handleSubmit_of_no_file
    (inProgress quizAssessment fortyQuestions twentyThreeAnswers) okEnv false
    "student-1" quizAssessment rfl rfl rfl rfl]
  simp [buildRecord, computeGrade, quizGrade, inProgress, quizAssessment, hc, hl,
    percentage_23_40]

/-- C2 (evaluation at the failing input).  A quiz whose question list is
empty: `handleSubmit` inserts one record and the grade in it is `NaN`
(`0 / 0`), which is no integer between 0 and 100. -/
theorem handleSubmit_grade_empty_quiz :
    (insertCalls (handleSubmit (inProgress quizAssessment [] []) okEnv false).2).map
        (fun r => r.grade) = [some JsNumber.nan] ∧
    ∀ g : ℤ, JsNumber.nan ≠ JsNumber.fin (g : ℚ) := by
  constructor
  · rw [insertCalls_handleSubmit_of_no_file (inProgress quizAssessment [] []) okEnv false
      "student-1" quizAssessment rfl rfl rfl rfl]
    simp [buildRecord, computeGrade, quizGrade, inProgress, quizAssessment, correctCount,
      percentage_zero_zero]
  · intro g h
    cases h

/-- For a non-empty question list the quiz grade is an integer between
0 and 100. -/
theorem quizGrade_range (questions : List Question) (answers : AnswerSet)
    (h : questions ≠ []) :
    ∃ g : ℤ, quizGrade questions answers = JsNumber.fin (g : ℚ) ∧ 0 ≤ g ∧ g ≤ 100 :=
  percentage_range (by simpa using h) (correctCount_le_length questions answers)

/-- C3.  Every record that `handleSubmit` passes to `insert` has a
non-null grade exactly when the assessment type is `quiz`; for an
assignment the grade is null, whatever the questions and answers. -/
theorem handleSubmit_grade_iff_quiz (s : State) (env : SubmitEnv) (autoSubmit : Bool)
    (record : SubmissionRecord)
    (h : record ∈ insertCalls (handleSubmit s env autoSubmit).2) :
    ∃ assessment, s.assessment = some assessment ∧
      (record.grade ≠ none ↔ assessment.type = "quiz") ∧
      (assessment.type = "assignment" → record.grade = none) := by
  obtain ⟨user, assessment, fileUrl, -, ha, -, hr⟩ := mem_insertCalls_handleSubmit h
  refine ⟨assessment, ha, ?_, ?_⟩
  · subst hr
    simp only [buildRecord, computeGrade]
    split_ifs with hq <;> simp [hq]
  · intro ht
    subst hr
    simp [buildRecord, computeGrade, ht]

/-- An assignment session: the record it inserts has a null grade. -/
theorem handleSubmit_grade_iff_quiz_witness :
    buildRecord (inProgress assignmentAssessment [] [("q1", "A")]) okEnv "student-1"
        assignmentAssessment none
      ∈ insertCalls (handleSubmit (inProgress assignmentAssessment [] [("q1", "A")])
          okEnv false).2 ∧
    ∃ assessment, (inProgress assignmentAssessment [] [("q1", "A")]).assessment
        = some assessment ∧
      ((buildRecord (inProgress assignmentAssessment [] [("q1", "A")]) okEnv "student-1"
          assignmentAssessment none).grade ≠ none ↔ assessment.type = "quiz") ∧
      (assessment.type = "assignment" →
        (buildRecord (inProgress assignmentAssessment [] [("q1", "A")]) okEnv "student-1"
          assignmentAssessment none).grade = none) :=
  have hmem : buildRecord (inProgress assignmentAssessment [] [("q1", "A")]) okEnv "student-1"
        assignmentAssessment none
      ∈ insertCalls (handleSubmit (inProgress assignmentAssessment [] [("q1", "A")])
          okEnv false).2 := by
    rw [insertCalls_handleSubmit_of_no_file (inProgress assignmentAssessment [] [("q1", "A")])
      okEnv false "student-1" assignmentAssessment rfl rfl rfl rfl]
    simp
  ⟨hmem, handleSubmit_grade_iff_quiz _ _ _ _ hmem⟩

/-- C4 (evaluation at the failing input).  With the `submitting` flag
already set, a call `handleSubmit(true)` from the interval still inserts
a record: `handleSubmit` never reads the flag. -/
theorem handleSubmit_while_submitting_inserts :
    submittingSession.submitting = true ∧
    insertCalls (handleSubmit submittingSession okEnv true).2
      = [buildRecord submittingSession okEnv "student-1" quizAssessment none] ∧
    uploadCalls (handleSubmit submittingSession okEnv true).2 = [] :=
  ⟨rfl, insertCalls_handleSubmit_of_no_file submittingSession okEnv true "student-1"
    quizAssessment rfl rfl rfl rfl, by decide⟩

theorem tryBody_ignores_submitting (s : State) (env : SubmitEnv) (flag : Bool) :
    tryBody { s with submitting := flag } env = tryBody s env := rfl

/-- The calls of `handleSubmit` do not depend on the `submitting` flag. -/
theorem handleSubmit_calls_ignore_submitting (s : State) (env : SubmitEnv) (autoSubmit : Bool)
    (flag : Bool) :
    (handleSubmit { s with submitting := flag } env autoSubmit).2
      = (handleSubmit s env autoSubmit).2 := by
  unfold handleSubmit
  rw [tryBody_ignores_submitting]
  dsimp only
  split_ifs <;> rfl

theorem elapsed_30 : elapsedMinutes 1700001800000 1700000000000 = 30 := by
  rw [elapsedMinutes_eq _ _ (by norm_num), Int.floor_eq_iff]; norm_num

theorem elapsed_30_plus : elapsedMinutes 1700001801000 1700000000000 = 30 := by
  rw [elapsedMinutes_eq _ _ (by norm_num), Int.floor_eq_iff]; norm_num

/-- C5 (evaluation at the failing input).  Limit 30 minutes, start 30
minutes in the past: the first firing shows `remaining = 0` and calls
`handleSubmit(true)`; its insert fails, the component stays mounted, and
the firing one second later calls `handleSubmit(true)` again: two
automatic submits, two insert calls. -/
theorem countdown_submits_on_every_tick :
    intervalCallback 30 1700000000000 1700001800000
      = { timeRemaining := 0, autoSubmit := true } ∧
    (Session.run (inProgress quizAssessment twoQuestions [])
      (freshSession (inProgress quizAssessment twoQuestions []))
      [(1700001800000, failingInsertEnv), (1700001801000, okEnv)]).autoSubmits = 2 ∧
    (insertCalls (Session.run (inProgress quizAssessment twoQuestions [])
      (freshSession (inProgress quizAssessment twoQuestions []))
      [(1700001800000, failingInsertEnv), (1700001801000, okEnv)]).calls).length = 2 := by
  have hcb1 : intervalCallback 30 1700000000000 1700001800000
      = { timeRemaining := 0, autoSubmit := true } := by
    simp [intervalCallback, elapsed_30]
  have hcb2 : intervalCallback 30 1700000000000 1700001801000
      = { timeRemaining := 0, autoSubmit := true } := by
    simp [intervalCallback, elapsed_30_plus]
  have harm : countdownArmed (inProgress quizAssessment twoQuestions [])
      = some (30, 1700000000000) := by
    simp [countdownArmed, inProgress, quizAssessment]
  refine ⟨hcb1, ?_, ?_⟩
  · simp only [Session.run, List.foldl_cons, List.foldl_nil, Session.tick, freshSession, harm,
      hcb1, hcb2]
    simp [handleSubmit, tryBody, uploadPhase, inProgress, failingInsertEnv, okEnv,
      navigatesAway]
  · simp only [Session.run, List.foldl_cons, List.foldl_nil, Session.tick, freshSession, harm,
      hcb1, hcb2]
    simp [handleSubmit, tryBody, uploadPhase, inProgress, failingInsertEnv, okEnv,
      navigatesAway, insertCalls]

/-- C6 (counterexample).  A session that holds a prior Submission: the
forced call `handleSubmit(true)` passes the guard and inserts another
record. -/
theorem handleSubmit_forced_with_submission_inserts :
    submittedSession.submission ≠ none ∧
    insertCalls (handleSubmit submittedSession okEnv true).2 ≠ [] := by
  constructor
  · simp [submittedSession]
  · rw [insertCalls_handleSubmit_of_no_file submittedSession okEnv true "student-1"
      quizAssessment rfl rfl rfl rfl]
    simp

/-- C6 (amended).  When a Submission already exists, a manual submit
(`autoSubmit = false`) stops at the guard: it makes no insert and no
upload call, only reports the error, and leaves the state unchanged. -/
theorem handleSubmit_manual_with_submission (s : State) (env : SubmitEnv)
    (h : s.submission ≠ none) :
    handleSubmit s env false = (s, [Effect.toastError "Assessment already submitted"]) ∧
    insertCalls (handleSubmit s env false).2 = [] ∧
    uploadCalls (handleSubmit s env false).2 = [] := by
  have hs : s.submission.isSome = true := by
    cases hsub : s.submission with
    | none => exact absurd hsub h
    | some r => rfl
  have e : handleSubmit s env false
      = (s, [Effect.toastError "Assessment already submitted"]) := by
    simp [handleSubmit, hs]
  rw [e]
  exact ⟨rfl, rfl, rfl⟩

/-- The session holding `priorSubmission`: a manual submit stops at the
guard. -/
theorem handleSubmit_manual_with_submission_witness :
    submittedSession.submission ≠ none ∧
    (handleSubmit submittedSession okEnv false
      = (submittedSession, [Effect.toastError "Assessment already submitted"]) ∧
    insertCalls (handleSubmit submittedSession okEnv false).2 = [] ∧
    uploadCalls (handleSubmit submittedSession okEnv false).2 = []) :=
  ⟨by simp [submittedSession],
    handleSubmit_manual_with_submission submittedSession okEnv (by simp [submittedSession])⟩

/-- A firing on a mounted page with the interval installed stores the
value the callback computes in `timeRemaining`, whether or not it
submits. -/
theorem Session.tick_timeRemaining (closure : State) (sess : Session) (now : ℤ)
    (env : SubmitEnv) (limit : ℕ) (startTime : ℤ) (hm : sess.mounted = true)
    (harm : countdownArmed closure = some (limit, startTime)) :
    (Session.tick closure sess now env).state.timeRemaining
      = some (intervalCallback limit startTime now).timeRemaining := by
  unfold Session.tick
  rw [hm, harm]
  simp only [if_true]
  split_ifs <;> rfl

/-- C7.  For timestamps less than `2 ^ 51` ms apart, the value the
countdown passes to `setTimeRemaining` is
`max(0, limit - floor((now - startTime) / 60000))`, and for
`now ≥ startTime` it lies between 0 and the limit; and a firing on a
mounted page whose interval was installed with that limit and start time
leaves exactly this value in the `timeRemaining` cell, the remaining time
the page shows. -/
theorem intervalCallback_timeRemaining (limit : ℕ) (startTime now : ℤ)
    (h : |now - startTime| < 2 ^ 51) :
    (intervalCallback limit startTime now).timeRemaining
      = max 0 ((limit : ℤ) - ⌊((now - startTime : ℤ) : ℚ) / 60000⌋) ∧
    (startTime ≤ now →
      0 ≤ (intervalCallback limit startTime now).timeRemaining ∧
      (intervalCallback limit startTime now).timeRemaining ≤ limit) ∧
    (∀ (closure : State) (sess : Session) (env : SubmitEnv), sess.mounted = true →
      countdownArmed closure = some (limit, startTime) →
      (Session.tick closure sess now env).state.timeRemaining
        = some (max 0 ((limit : ℤ) - ⌊((now - startTime : ℤ) : ℚ) / 60000⌋))) ∧
    (∀ (p : Page) (env : SubmitEnv), p.sess.mounted = true →
      countdownArmed p.closure = some (limit, startTime) →
      (p.tick now env).sess.state.timeRemaining
        = some (max 0 ((limit : ℤ) - ⌊((now - startTime : ℤ) : ℚ) / 60000⌋)) ∧
      (startTime ≤ now → ∃ shown : ℤ,
        (p.tick now env).sess.state.timeRemaining = some shown ∧ 0 ≤ shown ∧ shown ≤ limit)) := by
  have e : (intervalCallback limit startTime now).timeRemaining
      = max 0 ((limit : ℤ) - ⌊((now - startTime : ℤ) : ℚ) / 60000⌋) := by
    simp only [intervalCallback, elapsedMinutes_eq now startTime h]
  have hrange : startTime ≤ now →
      0 ≤ (intervalCallback limit startTime now).timeRemaining ∧
      (intervalCallback limit startTime now).timeRemaining ≤ limit := by
    intro hle
    rw [e]
    have hnn : (0 : ℤ) ≤ ⌊((now - startTime : ℤ) : ℚ) / 60000⌋ := by
      apply Int.floor_nonneg.mpr
      have : (0 : ℚ) ≤ ((now - startTime : ℤ) : ℚ) := by
        exact_mod_cast sub_nonneg.mpr hle
      positivity
    constructor
    · exact le_max_left _ _
    · apply max_le
      · exact_mod_cast Nat.zero_le limit
      · omega
  have htick : ∀ (closure : State) (sess : Session) (env : SubmitEnv), sess.mounted = true →
      countdownArmed closure = some (limit, startTime) →
      (Session.tick closure sess now env).state.timeRemaining
        = some (max 0 ((limit : ℤ) - ⌊((now - startTime : ℤ) : ℚ) / 60000⌋)) := by
    intro closure sess env hm harm
    rw [Session.tick_timeRemaining closure sess now env limit startTime hm harm, e]
  refine ⟨e, hrange, htick, fun p env hm harm => ⟨htick p.closure p.sess env hm harm, fun hle => ?_⟩⟩
  refine ⟨_, htick p.closure p.sess env hm harm, ?_⟩
  rw [← e]
  exact hrange hle

/-- Ten minutes into the thirty-minute quiz of `answeredPage`: the
firing leaves 20 minutes in `timeRemaining`. -/
theorem intervalCallback_timeRemaining_witness :
    (|(1700000600000 : ℤ) - 1700000000000| < 2 ^ 51 ∧ answeredPage.sess.mounted = true ∧
      countdownArmed answeredPage.closure = some (30, 1700000000000)) ∧
    (intervalCallback 30 1700000000000 1700000600000).timeRemaining = 20 ∧
    (answeredPage.tick 1700000600000 okEnv).sess.state.timeRemaining = some 20 :=
  have hfloor : ⌊(((1700000600000 : ℤ) - 1700000000000 : ℤ) : ℚ) / 60000⌋ = 10 := by
    rw [Int.floor_eq_iff]; norm_num
  have hval : max 0 (((30 : ℕ) : ℤ)
      - ⌊(((1700000600000 : ℤ) - 1700000000000 : ℤ) : ℚ) / 60000⌋) = 20 := by
    rw [hfloor]; decide
  have h := intervalCallback_timeRemaining 30 1700000000000 1700000600000 (by norm_num)
  ⟨⟨by norm_num, by decide, by decide⟩, h.1.trans hval,
    ((h.2.2.2 answeredPage okEnv (by decide) (by decide)).1).trans (congrArg some hval)⟩

theorem correctCount_nil_answers (questions : List Question) :
    correctCount questions [] = 0 := by
  rw [correctCount_eq_countP, List.countP_eq_zero]
  intro q _
  simp [isCorrect, AnswerSet.get, strictEq]

/-- C8.  Two multiple-choice questions with correct answers `A` and `B`:
the answers (A, B) are graded 100, the answers (A, C) are graded 50, the
empty answer set is graded 0; and for every non-empty question list the
empty answer set is graded 0. -/
theorem quizGrade_examples :
    quizGrade twoQuestions [("q1", "A"), ("q2", "B")] = JsNumber.fin 100 ∧
    quizGrade twoQuestions [("q1", "A"), ("q2", "C")] = JsNumber.fin 50 ∧
    quizGrade twoQuestions [] = JsNumber.fin 0 ∧
    ∀ questions : List Question, questions ≠ [] →
      quizGrade questions [] = JsNumber.fin 0 := by
  have hgen : ∀ questions : List Question, questions ≠ [] →
      quizGrade questions [] = JsNumber.fin 0 := by
    intro questions hne
    unfold quizGrade
    rw [correctCount_nil_answers]
    exact percentage_zero (by simpa using hne)
  refine ⟨?_, ?_, hgen twoQuestions (by simp [twoQuestions]), hgen⟩
  · have hc : correctCount twoQuestions [("q1", "A"), ("q2", "B")] = 2 := by decide
    have hl : twoQuestions.length = 2 := by decide
    rw [quizGrade, hc, hl]
    exact percentage_self (by norm_num)
  · have hc : correctCount twoQuestions [("q1", "A"), ("q2", "C")] = 1 := by decide
    have hl : twoQuestions.length = 2 := by decide
    rw [quizGrade, hc, hl]
    exact percentage_1_2

/-- One multiple-choice and one essay question, nothing answered. -/
theorem quizGrade_examples_witness :
    choiceAndEssay ≠ [] ∧ quizGrade choiceAndEssay [] = JsNumber.fin 0 :=
  ⟨by simp [choiceAndEssay], quizGrade_examples.2.2.2 choiceAndEssay (by simp [choiceAndEssay])⟩

/-- An essay question (null correct answer) is never counted, whatever
the recorded answer. -/
theorem isCorrect_of_no_correct_answer (answers : AnswerSet) (question : Question)
    (h : question.correct_answer = none) : isCorrect answers question = false := by
  simp [isCorrect, truthy, h]

/-- C9 (evaluation at the failing input).  Twenty-three questions with a
correct answer, all answered correctly, and seventeen essay questions:
the correct count is 23 of 40 questions and the grade is 57, while
`round(100 * 23 / (23 + 17))` is 58.  One multiple-choice question
answered correctly and one essay question are graded 50. -/
theorem quizGrade_23_correct_17_essay :
    correctCount mixedQuestions mixedAnswers = 23 ∧
    mixedQuestions.length = 23 + 17 ∧
    quizGrade mixedQuestions mixedAnswers = JsNumber.fin 57 ∧
    round ((100 * 23 : ℚ) / (23 + 17)) = 58 ∧
    quizGrade choiceAndEssay [("q1", "A"), ("q2", "An essay.")] = JsNumber.fin 50 := by
  have hc : correctCount mixedQuestions mixedAnswers = 23 := by decide
  have hl : mixedQuestions.length = 40 := by decide
  refine ⟨hc, hl, ?_, ?_, ?_⟩
  · rw [quizGrade, hc, hl]; exact percentage_23_40
  · rw [round_eq, Int.floor_eq_iff]; norm_num
  · have hc2 : correctCount choiceAndEssay [("q1", "A"), ("q2", "An essay.")] = 1 := by decide
    have hl2 : choiceAndEssay.length = 2 := by decide
    rw [quizGrade, hc2, hl2]; exact percentage_1_2

/-- C10 (counterexample).  The stored correct answer is the empty string
and the recorded answer is the empty string: the answer is present and
equal, yet the question is not counted. -/
theorem isCorrect_empty_correct_answer :
    AnswerSet.get [("q1", "")] emptyAnswerQuestion.id = some "" ∧
    emptyAnswerQuestion.correct_answer = some "" ∧
    isCorrect [("q1", "")] emptyAnswerQuestion = false ∧
    correctCount [emptyAnswerQuestion] [("q1", "")] = 0 := by
  decide

/-- C10 (amended).  A question is counted exactly when its correct-answer
value is a non-empty string and the recorded answer is present and equal
to it; the correct count is the number of such questions. -/
theorem isCorrect_iff (answers : AnswerSet) (question : Question) :
    (isCorrect answers question = true ↔
      ∃ c : String, question.correct_answer = some c ∧ c ≠ "" ∧
        answers.get question.id = some c) ∧
    ∀ questions : List Question,
      correctCount questions answers = questions.countP (isCorrect answers) := by
  refine ⟨?_, fun questions => correctCount_eq_countP questions answers⟩
  unfold isCorrect truthy strictEq
  cases hc : question.correct_answer with
  | none => simp
  | some c =>
    cases ha : answers.get question.id with
    | none => simp
    | some a =>
      simp

/-! ## Loading and view selection -/

/-- The state `fetchAssessment` leaves when a prior submission is
returned. -/
theorem fetchAssessment_with_submission (s : State) (env : FetchEnv) (user : String)
    (assessment : Assessment) (prior : SubmissionRecord) (hu : env.user = some user)
    (ha : env.assessment = some assessment) (hp : env.submission = some prior) :
    fetchAssessment s env =
      ({ s with
          submission := some prior
          answers := prior.answers
          started := true
          assessment := some assessment
          questions := env.questions.getD []
          loading := false }, []) := by
  unfold fetchAssessment
  rw [hu, ha, hp]

/-- The state `fetchAssessment` leaves when no prior submission is
returned. -/
theorem fetchAssessment_without_submission (s : State) (env : FetchEnv) (user : String)
    (assessment : Assessment) (hu : env.user = some user)
    (ha : env.assessment = some assessment) (hp : env.submission = none) :
    fetchAssessment s env =
      ({ s with
          assessment := some assessment
          questions := env.questions.getD []
          loading := false }, []) := by
  unfold fetchAssessment
  rw [hu, ha, hp]

/-- C11.  When `fetchAssessment` is returned a prior Submission, the
state it leaves has `started = true`, and the view rendered for it is not
the NotStarted view and has no Start Assessment button, whatever the
assessment type and the state before. -/
theorem fetchAssessment_with_submission_hides_start (s : State) (env : FetchEnv)
    (user : String) (assessment : Assessment) (prior : SubmissionRecord)
    (hu : env.user = some user) (ha : env.assessment = some assessment)
    (hp : env.submission = some prior) :
    (fetchAssessment s env).1.started = true ∧
    view (fetchAssessment s env).1 ≠ View.notStarted ∧
    (view (fetchAssessment s env).1).startButton = false := by
  rw [fetchAssessment_with_submission s env user assessment prior hu ha hp]
  simp only [view]
  by_cases hq : assessment.type = "quiz" <;> simp [hq, View.startButton]

/-- The quiz and the assignment loaded with a prior submission: the
premises hold and no Start Assessment button is rendered. -/
theorem fetchAssessment_with_submission_hides_start_witness :
    (submittedAssignmentFetch.user = some "student-1" ∧
      submittedAssignmentFetch.assessment = some assignmentAssessment ∧
      submittedAssignmentFetch.submission = some priorAssignmentSubmission) ∧
    ((fetchAssessment (initialState "assessment-1") submittedAssignmentFetch).1.started = true ∧
    view (fetchAssessment (initialState "assessment-1") submittedAssignmentFetch).1
      ≠ View.notStarted ∧
    (view (fetchAssessment (initialState "assessment-1") submittedAssignmentFetch).1).startButton
      = false) :=
  ⟨⟨rfl, rfl, rfl⟩,
    fetchAssessment_with_submission_hides_start (initialState "assessment-1")
      submittedAssignmentFetch "student-1" assignmentAssessment priorAssignmentSubmission
      rfl rfl rfl⟩

/-- C12 (counterexample).  An assignment loaded with its prior
Submission: the submission exists, yet the view is the in-progress view,
which renders the editable form and the Submit Assessment button. -/
theorem view_assignment_with_submission :
    (fetchAssessment (initialState "assessment-1") submittedAssignmentFetch).1.submission
      = some priorAssignmentSubmission ∧
    view (fetchAssessment (initialState "assessment-1") submittedAssignmentFetch).1
      = View.inProgress ∧
    (view (fetchAssessment (initialState "assessment-1") submittedAssignmentFetch).1).editableForm
      = true ∧
    (view (fetchAssessment (initialState "assessment-1") submittedAssignmentFetch).1).submitButton
      = true := by
  decide

/-- C12 (amended).  Once a Submission exists, loading has ended and the
assessment is a quiz, the view selected is the review view, and neither
the editable form nor the Submit Assessment button (nor the Start
button) is rendered. -/
theorem view_quiz_with_submission (s : State) (assessment : Assessment)
    (hl : s.loading = false) (ha : s.assessment = some assessment)
    (hq : assessment.type = "quiz") (hs : s.submission ≠ none) :
    view s = View.review ∧
    (view s).editableForm = false ∧
    (view s).submitButton = false ∧
    (view s).startButton = false ∧
    rendersAnswerInputs s = false := by
  have hsome : s.submission.isSome = true := by
    cases h : s.submission with
    | none => exact absurd h hs
    | some r => rfl
  have hv : view s = View.review := by
    simp [view, hl, ha, hq, hsome]
  simp [hv, rendersAnswerInputs, ha, View.editableForm, View.submitButton, View.startButton]

/-- The quiz loaded with its prior submission is shown in review. -/
theorem view_quiz_with_submission_witness :
    ((fetchAssessment (initialState "assessment-1") submittedQuizFetch).1.loading = false ∧
      (fetchAssessment (initialState "assessment-1") submittedQuizFetch).1.assessment
        = some quizAssessment ∧
      quizAssessment.type = "quiz" ∧
      (fetchAssessment (initialState "assessment-1") submittedQuizFetch).1.submission ≠ none) ∧
    (view (fetchAssessment (initialState "assessment-1") submittedQuizFetch).1 = View.review ∧
    (view (fetchAssessment (initialState "assessment-1") submittedQuizFetch).1).editableForm
      = false ∧
    (view (fetchAssessment (initialState "assessment-1") submittedQuizFetch).1).submitButton
      = false ∧
    (view (fetchAssessment (initialState "assessment-1") submittedQuizFetch).1).startButton
      = false ∧
    rendersAnswerInputs (fetchAssessment (initialState "assessment-1") submittedQuizFetch).1
      = false) :=
  ⟨⟨rfl, rfl, rfl, by simp [fetchAssessment, submittedQuizFetch, quizFetch]⟩,
    view_quiz_with_submission _ quizAssessment rfl rfl rfl
      (by simp [fetchAssessment, submittedQuizFetch, quizFetch])⟩

/-! ## Failures and the file reference -/

/-- The name under which `handleSubmit` uploads the selected file. -/
theorem uploadPhase_of_assignment (s : State) (env : SubmitEnv) (user : String) (file : File)
    (assessment : Assessment) (hf : s.file = some file) (ha : s.assessment = some assessment)
    (ht : assessment.type = "assignment") :
    uploadPhase s env user =
      if env.uploadError then
        ([Effect.upload (user ++ "/" ++ s.assessmentId ++ "/" ++ toString env.uploadNow ++ "." ++
          fileExt file.name) file], none)
      else
        ([Effect.upload (user ++ "/" ++ s.assessmentId ++ "/" ++ toString env.uploadNow ++ "." ++
            fileExt file.name) file,
          Effect.createSignedUrl (user ++ "/" ++ s.assessmentId ++ "/" ++
            toString env.uploadNow ++ "." ++ fileExt file.name)],
          some env.signedUrl) := by
  unfold uploadPhase
  rw [hf, ha]
  simp [ht]

/-- C13.  An assignment submit with a selected file whose upload fails:
the only collaborator call is the upload; there is no `createSignedUrl`
and no insert call, the error is reported, the page is not left, and the
state is the one before the call with `submitting` false, so `started`,
`answers` and `file` are unchanged. -/
theorem handleSubmit_upload_failure (s : State) (env : SubmitEnv) (autoSubmit : Bool)
    (user : String) (file : File) (assessment : Assessment)
    (hu : env.user = some user) (hf : s.file = some file)
    (ha : s.assessment = some assessment) (ht : assessment.type = "assignment")
    (hg : (s.submission.isSome && !autoSubmit) = false) (he : env.uploadError = true) :
    (handleSubmit s env autoSubmit).2 =
      [Effect.setSubmitting true,
        Effect.upload (user ++ "/" ++ s.assessmentId ++ "/" ++ toString env.uploadNow ++ "." ++
          fileExt file.name) file,
        Effect.toastError "Failed to submit assessment",
        Effect.setSubmitting false] ∧
    insertCalls (handleSubmit s env autoSubmit).2 = [] ∧
    navigatesAway (handleSubmit s env autoSubmit).2 = false ∧
    (handleSubmit s env autoSubmit).1 = { s with submitting := false } ∧
    (handleSubmit s env autoSubmit).1.started = s.started ∧
    (handleSubmit s env autoSubmit).1.answers = s.answers ∧
    (handleSubmit s env autoSubmit).1.file = s.file ∧
    (handleSubmit s env autoSubmit).1.submission = s.submission ∧
    (handleSubmit s env autoSubmit).1.submitting = false := by
  have hbody : tryBody s env =
      ([Effect.upload (user ++ "/" ++ s.assessmentId ++ "/" ++ toString env.uploadNow ++ "." ++
          fileExt file.name) file], true) := by
    unfold tryBody
    rw [hu]
    simp only
    rw [uploadPhase_of_assignment s env user file assessment hf ha ht, he]
    simp
  have hout : handleSubmit s env autoSubmit =
      ({ s with submitting := false },
        [Effect.setSubmitting true,
          Effect.upload (user ++ "/" ++ s.assessmentId ++ "/" ++ toString env.uploadNow ++ "." ++
            fileExt file.name) file,
          Effect.toastError "Failed to submit assessment",
          Effect.setSubmitting false]) := by
    unfold handleSubmit
    rw [hg, hbody]
    simp
  rw [hout]
  refine ⟨rfl, ?_, ?_, rfl, rfl, rfl, rfl, rfl, rfl⟩
  · simp [insertCalls]
  · simp [navigatesAway]

/-- The assignment with a selected file and a failing upload. -/
theorem handleSubmit_upload_failure_witness :
    insertCalls (handleSubmit assignmentWithFile failingUploadEnv false).2 = [] ∧
    navigatesAway (handleSubmit assignmentWithFile failingUploadEnv false).2 = false ∧
    (handleSubmit assignmentWithFile failingUploadEnv false).1 = assignmentWithFile :=
  have h := handleSubmit_upload_failure assignmentWithFile failingUploadEnv false "student-1"
    { name := "essay.final.pdf" } assignmentAssessment rfl rfl rfl rfl rfl rfl
  ⟨h.2.1, h.2.2.1, h.2.2.2.1⟩

/-- With a failing insert `handleSubmit` does not navigate away. -/
theorem navigatesAway_of_insertError (s : State) (env : SubmitEnv) (autoSubmit : Bool)
    (hi : env.insertError = true) :
    navigatesAway (handleSubmit s env autoSubmit).2 = false := by
  unfold handleSubmit tryBody uploadPhase
  cases s.file <;> cases s.assessment <;> cases env.user <;>
    simp [navigatesAway, hi] <;> split_ifs <;> simp [navigatesAway]

/-- C14.  When `handleSubmit` issues the insert and the insert fails, the
state left is the state before the call with `submitting` false:
`answers`, `started`, `startTime` and `submission` are unchanged; the
error is reported, there is no navigation, and a later `handleSubmit`
from that state makes the calls it would have made from the state before
the failure. -/
theorem handleSubmit_insert_failure (s : State) (env : SubmitEnv) (autoSubmit : Bool)
    (hi : env.insertError = true)
    (hins : insertCalls (handleSubmit s env autoSubmit).2 ≠ []) :
    (handleSubmit s env autoSubmit).1 = { s with submitting := false } ∧
    (handleSubmit s env autoSubmit).1.answers = s.answers ∧
    (handleSubmit s env autoSubmit).1.started = s.started ∧
    (handleSubmit s env autoSubmit).1.startTime = s.startTime ∧
    (handleSubmit s env autoSubmit).1.submission = s.submission ∧
    (handleSubmit s env autoSubmit).1.submitting = false ∧
    navigatesAway (handleSubmit s env autoSubmit).2 = false ∧
    Effect.toastError "Failed to submit assessment" ∈ (handleSubmit s env autoSubmit).2 ∧
    ∀ (later : SubmitEnv) (again : Bool),
      (handleSubmit (handleSubmit s env autoSubmit).1 later again).2
        = (handleSubmit s later again).2 := by
  have hg : (s.submission.isSome && !autoSubmit) = false := by
    by_contra hne
    have ht : (s.submission.isSome && !autoSubmit) = true := by simpa using hne
    rw [insertCalls_handleSubmit, ht] at hins
    simp at hins
  have hstate : (handleSubmit s env autoSubmit).1 = { s with submitting := false } := by
    unfold handleSubmit
    rw [hg]
    rfl
  have hthrew : (tryBody s env).2 = true := by
    rw [insertCalls_handleSubmit, hg] at hins
    simp only [Bool.false_eq_true, if_false] at hins
    revert hins
    unfold tryBody
    cases env.user with
    | none => simp [insertCalls]
    | some user =>
      simp only
      rcases uploadPhase s env user with ⟨calls, _ | fileUrl⟩
      · simp
      · cases s.assessment with
        | none => simp
        | some assessment => simp [hi]
  refine ⟨hstate, ?_, ?_, ?_, ?_, ?_, navigatesAway_of_insertError s env autoSubmit hi, ?_, ?_⟩
  · rw [hstate]
  · rw [hstate]
  · rw [hstate]
  · rw [hstate]
  · rw [hstate]
  · unfold handleSubmit
    rw [hg]
    simp [hthrew]
  · intro later again
    rw [hstate]
    exact handleSubmit_calls_ignore_submitting s later again false

/-- A quiz session whose insert fails: the premises hold, the state is
kept and the retry with working services inserts one record. -/
theorem handleSubmit_insert_failure_witness :
    (failingInsertEnv.insertError = true ∧
      insertCalls (handleSubmit (inProgress quizAssessment twoQuestions [("q1", "A")])
        failingInsertEnv false).2 ≠ []) ∧
    (handleSubmit (inProgress quizAssessment twoQuestions [("q1", "A")])
      failingInsertEnv false).1 = inProgress quizAssessment twoQuestions [("q1", "A")] ∧
    navigatesAway (handleSubmit (inProgress quizAssessment twoQuestions [("q1", "A")])
      failingInsertEnv false).2 = false ∧
    (insertCalls (handleSubmit (handleSubmit (inProgress quizAssessment twoQuestions
      [("q1", "A")]) failingInsertEnv false).1 okEnv false).2).length = 1 :=
  have hins : insertCalls (handleSubmit (inProgress quizAssessment twoQuestions [("q1", "A")])
      failingInsertEnv false).2 ≠ [] := by
    rw [insertCalls_handleSubmit_of_no_file (inProgress quizAssessment twoQuestions [("q1", "A")])
      failingInsertEnv false "student-1" quizAssessment rfl rfl rfl rfl]
    simp
  have h := handleSubmit_insert_failure (inProgress quizAssessment twoQuestions [("q1", "A")])
    failingInsertEnv false rfl hins
  ⟨⟨rfl, hins⟩, h.1, h.2.2.2.2.2.2.1, by
    rw [h.2.2.2.2.2.2.2.2 okEnv false,
      insertCalls_handleSubmit_of_no_file (inProgress quizAssessment twoQuestions [("q1", "A")])
        okEnv false "student-1" quizAssessment rfl rfl rfl rfl]
    rfl⟩

/-- The calls of an assignment submit with a selected file whose upload
succeeds: upload, `createSignedUrl`, then the insert of a record whose
`file_url` is whatever `createSignedUrl` returned. -/
theorem handleSubmit_with_file (s : State) (env : SubmitEnv) (autoSubmit : Bool)
    (user : String) (file : File) (assessment : Assessment)
    (hu : env.user = some user) (hf : s.file = some file)
    (ha : s.assessment = some assessment) (ht : assessment.type = "assignment")
    (hg : (s.submission.isSome && !autoSubmit) = false) (he : env.uploadError = false) :
    insertCalls (handleSubmit s env autoSubmit).2
      = [buildRecord s env user assessment env.signedUrl] ∧
    ∃ before after, (handleSubmit s env autoSubmit).2 =
      before ++ [Effect.upload (user ++ "/" ++ s.assessmentId ++ "/" ++
          toString env.uploadNow ++ "." ++ fileExt file.name) file,
        Effect.createSignedUrl (user ++ "/" ++ s.assessmentId ++ "/" ++
          toString env.uploadNow ++ "." ++ fileExt file.name),
        Effect.insert (buildRecord s env user assessment env.signedUrl)] ++ after := by
  have hbody : (tryBody s env).1 =
      [Effect.upload (user ++ "/" ++ s.assessmentId ++ "/" ++
          toString env.uploadNow ++ "." ++ fileExt file.name) file,
        Effect.createSignedUrl (user ++ "/" ++ s.assessmentId ++ "/" ++
          toString env.uploadNow ++ "." ++ fileExt file.name),
        Effect.insert (buildRecord s env user assessment env.signedUrl)] ++
        (if env.insertError then []
          else [Effect.toastSuccess "Assessment submitted successfully!",
            Effect.navigate "/assessments"]) := by
    unfold tryBody
    rw [hu]
    simp only
    rw [uploadPhase_of_assignment s env user file assessment hf ha ht, he]
    simp only [Bool.false_eq_true, if_false]
    rw [ha]
    simp only
    split_ifs <;> simp
  constructor
  · rw [insertCalls_handleSubmit, hg]
    simp only [Bool.false_eq_true, if_false]
    rw [hbody]
    split_ifs <;> simp [insertCalls]
  · unfold handleSubmit
    rw [hg]
    simp only [Bool.false_eq_true, if_false]
    rw [hbody]
    exact ⟨[Effect.setSubmitting true],
      (if env.insertError then []
        else [Effect.toastSuccess "Assessment submitted successfully!",
          Effect.navigate "/assessments"]) ++
      ((if (tryBody s env).2 then [Effect.toastError "Failed to submit assessment"] else []) ++
        [Effect.setSubmitting false]), by simp [List.append_assoc]⟩

/-- C15 (evaluation at the failing input).  An assignment with a selected
file; the upload succeeds and `createSignedUrl` returns no data: the
upload is made and `handleSubmit` still inserts the record, with a null
`file_url`, and reports success. -/
theorem handleSubmit_without_signed_url :
    assignmentWithFile.file ≠ none ∧
    (uploadCalls (handleSubmit assignmentWithFile noSignedUrlEnv false).2).length = 1 ∧
    (insertCalls (handleSubmit assignmentWithFile noSignedUrlEnv false).2).map
      (fun r => r.file_url) = [none] ∧
    navigatesAway (handleSubmit assignmentWithFile noSignedUrlEnv false).2 = true := by
  have h := handleSubmit_with_file assignmentWithFile noSignedUrlEnv false "student-1"
    { name := "essay.final.pdf" } assignmentAssessment rfl rfl rfl rfl rfl rfl
  refine ⟨by simp [assignmentWithFile], ?_, ?_, ?_⟩
  · simp [handleSubmit, tryBody, uploadPhase, assignmentWithFile, inProgress,
      assignmentAssessment, noSignedUrlEnv, okEnv, uploadCalls]
  · rw [h.1]
    simp [buildRecord, noSignedUrlEnv]
  · simp [handleSubmit, tryBody, uploadPhase, assignmentWithFile, inProgress,
      assignmentAssessment, noSignedUrlEnv, okEnv, navigatesAway]

/-! ## The answers a submit writes -/

/-- Every record `handleSubmit` inserts holds the answers of the render
it was called from. -/
theorem answers_of_mem_insertCalls {s : State} {env : SubmitEnv} {autoSubmit : Bool}
    {record : SubmissionRecord}
    (h : record ∈ insertCalls (handleSubmit s env autoSubmit).2) :
    record.answers = s.answers := by
  obtain ⟨user, assessment, fileUrl, -, -, -, hr⟩ := mem_insertCalls_handleSubmit h
  rw [hr]; rfl

/-- The render the interval of `answeredPage` belongs to is the one
right after the start: its answer set is empty. -/
theorem answeredPage_closure :
    answeredPage.closure = startAssessment
      (fetchAssessment (initialState "assessment-1") quizFetch).1 1700000000000 := by
  decide

theorem answeredPage_sess :
    answeredPage.sess.mounted = true ∧
    answeredPage.sess.calls = [] ∧
    answeredPage.sess.state.answers = [("q1", "A"), ("q2", "B")] ∧
    answeredPage.sess.state.questions = twoQuestions ∧
    answeredPage.closure.answers = [] ∧
    answeredPage.closure.questions = twoQuestions := by
  decide

/-- C16 (evaluation at the failing input).  A timed quiz is started, the
student answers both questions correctly, and the countdown reaches
zero: the forced submit inserts a record with the empty answer set and
grade 0, the answers of the render in which the interval was installed,
while the answer set on the page is (A, B), which grades 100 and which a
manual submit at that moment does write. -/
theorem forced_submit_writes_stale_answers :
    answeredPage.sess.state.answers = [("q1", "A"), ("q2", "B")] ∧
    (insertCalls (answeredPage.tick 1700001800000 okEnv).sess.calls).map
      (fun r => r.answers) = [[]] ∧
    (insertCalls (answeredPage.tick 1700001800000 okEnv).sess.calls).map
      (fun r => r.grade) = [some (JsNumber.fin 0)] ∧
    quizGrade twoQuestions [("q1", "A"), ("q2", "B")] = JsNumber.fin 100 ∧
    (insertCalls (answeredPage.dispatch (Event.submit okEnv)).sess.calls).map
      (fun r => r.answers) = [[("q1", "A"), ("q2", "B")]] := by
  have hcb : intervalCallback 30 1700000000000 1700001800000
      = { timeRemaining := 0, autoSubmit := true } := by
    simp [intervalCallback, elapsed_30]
  have harm : countdownArmed answeredPage.closure = some (30, 1700000000000) := by
    decide
  have hcalls : (answeredPage.tick 1700001800000 okEnv).sess.calls
      = (handleSubmit answeredPage.closure okEnv true).2 := by
    simp only [Page.tick, Session.tick, answeredPage_sess.1, harm, hcb, if_true,
      answeredPage_sess.2.1, List.nil_append]
  have hins : insertCalls (handleSubmit answeredPage.closure okEnv true).2
      = [buildRecord answeredPage.closure okEnv "student-1" quizAssessment none] :=
    insertCalls_handleSubmit_of_no_file answeredPage.closure okEnv true "student-1"
      quizAssessment rfl (by decide) (by decide) (by decide)
  have hgrade : quizGrade twoQuestions [] = JsNumber.fin 0 :=
    percentage_zero (by decide)
  have h100 : quizGrade twoQuestions [("q1", "A"), ("q2", "B")] = JsNumber.fin 100 := by
    have hc : correctCount twoQuestions [("q1", "A"), ("q2", "B")] = 2 := by decide
    have hl : twoQuestions.length = 2 := by decide
    rw [quizGrade, hc, hl]
    exact percentage_self (by norm_num)
  refine ⟨answeredPage_sess.2.2.1, ?_, ?_, h100, ?_⟩
  · rw [hcalls, hins]
    simp [buildRecord, answeredPage_sess.2.2.2.2.1]
  · rw [hcalls, hins]
    simp [buildRecord, computeGrade, quizAssessment, answeredPage_sess.2.2.2.2.1,
      answeredPage_sess.2.2.2.2.2, hgrade]
  · have hen : (Event.submit okEnv).enabled answeredPage.sess.state = true := by decide
    have hm : insertCalls (handleSubmit answeredPage.sess.state okEnv false).2
        = [buildRecord answeredPage.sess.state okEnv "student-1" quizAssessment none] :=
      insertCalls_handleSubmit_of_no_file answeredPage.sess.state okEnv false "student-1"
        quizAssessment rfl (by decide) (by decide) (by decide)
    simp only [Page.dispatch, answeredPage_sess.1, hen, Bool.and_self, if_true, Event.calls,
      answeredPage_sess.2.1, List.nil_append, hm]
    simp [buildRecord, answeredPage_sess.2.2.1]

/-! ## The answer set -/

theorem AnswerSet.get_nil (id : String) : AnswerSet.get [] id = none := rfl

theorem AnswerSet.get_cons (key value : String) (rest : AnswerSet) (id : String) :
    AnswerSet.get ((key, value) :: rest) id
      = if key = id then some value else AnswerSet.get rest id := by
  unfold AnswerSet.get
  rw [List.lookup_cons]
  by_cases h : key = id
  · subst h; simp
  · have : (id == key) = false := by
      simp only [beq_eq_false_iff_ne, ne_eq]
      exact fun e => h e.symm
    simp [this, h]

theorem AnswerSet.get_set_self (answers : AnswerSet) (id value : String) :
    (answers.set id value).get id = some value := by
  induction answers with
  | nil => simp [AnswerSet.set, AnswerSet.get_cons]
  | cons entry rest ih =>
    obtain ⟨key, old⟩ := entry
    unfold AnswerSet.set
    split_ifs with h
    · simp [AnswerSet.get_cons]
    · rw [AnswerSet.get_cons, if_neg h]; exact ih

theorem AnswerSet.get_set_other (answers : AnswerSet) (id value other : String)
    (h : other ≠ id) : (answers.set id value).get other = answers.get other := by
  induction answers with
  | nil =>
    simp only [AnswerSet.set, AnswerSet.get_cons, AnswerSet.get_nil]
    rw [if_neg (fun e => h e.symm)]
  | cons entry rest ih =>
    obtain ⟨key, old⟩ := entry
    unfold AnswerSet.set
    split_ifs with hk
    · rw [AnswerSet.get_cons, AnswerSet.get_cons, if_neg (fun e => h e.symm), hk,
        if_neg (fun e => h e.symm)]
    · rw [AnswerSet.get_cons, AnswerSet.get_cons, ih]

theorem AnswerSet.set_set (answers : AnswerSet) (id first second : String) :
    (answers.set id first).set id second = answers.set id second := by
  induction answers with
  | nil => simp [AnswerSet.set]
  | cons entry rest ih =>
    obtain ⟨key, old⟩ := entry
    by_cases hk : key = id
    · simp [AnswerSet.set, hk]
    · simp [AnswerSet.set, hk, ih]

/-- The keys after a write are the keys before it and the written one. -/
theorem AnswerSet.mem_set (answers : AnswerSet) (id value : String) (entry : String × String)
    (h : entry ∈ answers.set id value) :
    entry.1 = id ∨ ∃ old ∈ answers, old.1 = entry.1 := by
  induction answers with
  | nil =>
    simp only [AnswerSet.set, List.mem_singleton] at h
    left; rw [h]
  | cons head rest ih =>
    obtain ⟨key, old⟩ := head
    unfold AnswerSet.set at h
    split_ifs at h with hk
    · rcases List.mem_cons.mp h with h1 | h1
      · left; rw [h1]
      · right; exact ⟨entry, List.mem_cons_of_mem _ h1, rfl⟩
    · rcases List.mem_cons.mp h with h1 | h1
      · right; exact ⟨(key, old), List.mem_cons_self _ _, by rw [h1]⟩
      · rcases ih h1 with h2 | ⟨o, ho, he⟩
        · left; exact h2
        · right; exact ⟨o, List.mem_cons_of_mem _ ho, he⟩

/-- C17.  After `handleAnswerChange(q, v)` the answer set maps `q` to
`v` and every other identifier to what it mapped to before; nothing
else of the state changes; and two successive writes to `q` leave the
answer set of the second write alone. -/
theorem handleAnswerChange_last_write_wins (s : State) (q v : String) :
    (handleAnswerChange s q v).answers.get q = some v ∧
    (∀ other : String, other ≠ q →
      (handleAnswerChange s q v).answers.get other = s.answers.get other) ∧
    handleAnswerChange s q v = { s with answers := (handleAnswerChange s q v).answers } ∧
    ∀ first : String,
      handleAnswerChange (handleAnswerChange s q first) q v = handleAnswerChange s q v := by
  refine ⟨AnswerSet.get_set_self _ _ _, fun other h => AnswerSet.get_set_other _ _ _ _ h,
    rfl, fun first => ?_⟩
  simp [handleAnswerChange, AnswerSet.set_set]

/-- Overwriting `q1` in a two-answer set keeps the answer of `q2`. -/
theorem handleAnswerChange_last_write_wins_witness :
    ("q2" : String) ≠ "q1" ∧
    (handleAnswerChange (inProgress quizAssessment twoQuestions [("q1", "A"), ("q2", "B")])
      "q1" "C").answers.get "q2"
      = (inProgress quizAssessment twoQuestions [("q1", "A"), ("q2", "B")]).answers.get "q2" :=
  ⟨by decide,
    (handleAnswerChange_last_write_wins
      (inProgress quizAssessment twoQuestions [("q1", "A"), ("q2", "B")]) "q1" "C").2.1
      "q2" (by decide)⟩

/-! ## What the events leave unchanged -/

theorem startAssessment_frame (s : State) (now : ℤ) :
    (startAssessment s now).answers = s.answers ∧
    (startAssessment s now).questions = s.questions ∧
    (startAssessment s now).submission = s.submission := by
  unfold startAssessment
  dsimp only
  split
  · exact ⟨rfl, rfl, rfl⟩
  · split
    · exact ⟨rfl, rfl, rfl⟩
    · split_ifs <;> exact ⟨rfl, rfl, rfl⟩

theorem handleSubmit_frame (s : State) (env : SubmitEnv) (autoSubmit : Bool) :
    (handleSubmit s env autoSubmit).1.answers = s.answers ∧
    (handleSubmit s env autoSubmit).1.questions = s.questions ∧
    (handleSubmit s env autoSubmit).1.submission = s.submission := by
  unfold handleSubmit
  split_ifs <;> exact ⟨rfl, rfl, rfl⟩

/-- No event other than an answer change touches the answer set, and no
event touches the question list. -/
theorem Event.apply_frame (s : State) (e : Event) :
    (e.apply s).questions = s.questions ∧
    ((∀ question value, e ≠ Event.answer question value) →
      (e.apply s).answers = s.answers) := by
  cases e with
  | start now => exact ⟨(startAssessment_frame s now).2.1, fun _ => (startAssessment_frame s now).1⟩
  | answer question value => exact ⟨rfl, fun h => absurd rfl (h question value)⟩
  | chooseFile chosen => exact ⟨rfl, fun _ => rfl⟩
  | submit env => exact ⟨(handleSubmit_frame s env false).2.1, fun _ => (handleSubmit_frame s env false).1⟩

theorem Session.tick_answers (closure : State) (sess : Session) (now : ℤ) (env : SubmitEnv) :
    (Session.tick closure sess now env).state.answers = sess.state.answers := by
  unfold Session.tick
  split_ifs with hm
  · cases countdownArmed closure with
    | none => rfl
    | some armed =>
      obtain ⟨limit, startTime⟩ := armed
      simp only
      split_ifs <;> rfl
  · rfl

/-- C18 (counterexample).  The prior submission answers `q1` and `q2`,
the questions read returns only `q1`: after `fetchAssessment` the answer
set references `q2`, which is no question of the session. -/
theorem fetchAssessment_answers_outside_questions :
    ¬ answersWithinQuestions (fetchAssessment (initialState "assessment-1") shrunkQuizFetch).1 := by
  unfold answersWithinQuestions
  decide

/-- C18 (amended).  On a freshly mounted session for which no prior
submission is returned, the answer set after `fetchAssessment`
references only questions of the session; every event of the page, and
so every `handleAnswerChange` call the form issues for a rendered
question, preserves this; and answers taken from a prior submission are
stored as returned, so that the property then holds exactly when they
reference only the fetched questions. -/
theorem answersWithinQuestions_preserved :
    (∀ (assessmentId : String) (env : FetchEnv), env.submission = none →
      answersWithinQuestions (fetchAssessment (initialState assessmentId) env).1) ∧
    (∀ (s : State) (e : Event), answersWithinQuestions s → e.enabled s = true →
      answersWithinQuestions (e.apply s)) ∧
    (∀ (s : State) (question : Question) (value : String), answersWithinQuestions s →
      question ∈ s.questions →
      answersWithinQuestions (handleAnswerChange s question.id value)) ∧
    (∀ (s : State) (env : FetchEnv) (user : String) (assessment : Assessment)
      (prior : SubmissionRecord), env.user = some user →
      env.assessment = some assessment → env.submission = some prior →
      (answersWithinQuestions (fetchAssessment s env).1 ↔
        ∀ entry ∈ prior.answers,
          entry.1 ∈ (env.questions.getD []).map fun question => question.id)) := by
  have hanswer : ∀ (s : State) (question : Question) (value : String),
      answersWithinQuestions s → question ∈ s.questions →
      answersWithinQuestions (handleAnswerChange s question.id value) := by
    intro s question value hinv hq entry hentry
    rcases AnswerSet.mem_set s.answers question.id value entry hentry with h | ⟨old, hold, hkey⟩
    · rw [h]
      exact List.mem_map.mpr ⟨question, hq, rfl⟩
    · rw [← hkey]
      exact hinv old hold
  refine ⟨?_, ?_, hanswer, ?_⟩
  · intro assessmentId env hnone entry hentry
    have hanswers : (fetchAssessment (initialState assessmentId) env).1.answers = [] := by
      unfold fetchAssessment
      rw [hnone]
      cases env.user with
      | none => rfl
      | some user =>
        cases env.assessment with
        | none => rfl
        | some assessment => rfl
    rw [hanswers] at hentry
    simp at hentry
  · intro s e hinv hen
    cases e with
    | answer question value =>
      have hq : question ∈ s.questions := by
        simp only [Event.enabled, Bool.and_eq_true, decide_eq_true_eq] at hen
        exact hen.2
      exact hanswer s question value hinv hq
    | start now =>
      intro entry hentry
      have hf := startAssessment_frame s now
      simp only [Event.apply] at hentry ⊢
      rw [hf.1] at hentry
      rw [hf.2.1]
      exact hinv entry hentry
    | chooseFile chosen => exact hinv
    | submit env =>
      intro entry hentry
      have hf := handleSubmit_frame s env false
      simp only [Event.apply] at hentry ⊢
      rw [hf.1] at hentry
      rw [hf.2.1]
      exact hinv entry hentry
  · intro s env user assessment prior hu ha hp
    rw [fetchAssessment_with_submission s env user assessment prior hu ha hp]
    rfl

/-- The quiz loaded without a prior submission, then `q1` answered. -/
theorem answersWithinQuestions_preserved_witness :
    quizFetch.submission = none ∧
    answersWithinQuestions (fetchAssessment (initialState "assessment-1") quizFetch).1 ∧
    (Event.answer { id := "q1", type := "multiple_choice", correct_answer := some "A" } "A").enabled
      startedPage.sess.state = true ∧
    answersWithinQuestions ((Event.answer
      { id := "q1", type := "multiple_choice", correct_answer := some "A" } "A").apply
        startedPage.sess.state) :=
  have hload := answersWithinQuestions_preserved.1 "assessment-1" quizFetch rfl
  have hstart : answersWithinQuestions startedPage.sess.state := by
    unfold answersWithinQuestions
    decide
  ⟨rfl, hload, by decide,
    answersWithinQuestions_preserved.2.1 startedPage.sess.state _ hstart (by decide)⟩

/-- With a submission in the state no answer input is rendered. -/
theorem rendersAnswerInputs_of_submission (s : State) (hs : s.submission ≠ none) :
    rendersAnswerInputs s = false := by
  have hsome : s.submission.isSome = true := by
    cases h : s.submission with
    | none => exact absurd h hs
    | some r => rfl
  unfold rendersAnswerInputs
  cases ha : s.assessment with
  | none => rfl
  | some assessment =>
    by_cases hq : assessment.type = "quiz"
    · have : view s ≠ View.inProgress := by
        unfold view
        rw [ha]
        split_ifs <;> simp_all
      simp [this]
    · simp [hq]

/-- C19.  In a state in which a Submission exists no answer input is
rendered, so no `handleAnswerChange` call can be issued, and every event
that the page does offer (start, file choice, submit) leaves the answer
set unchanged; a firing of the countdown leaves it unchanged too. -/
theorem answers_fixed_after_submission (s : State) (hs : s.submission ≠ none) :
    (∀ (question : Question) (value : String),
      (Event.answer question value).enabled s = false) ∧
    (∀ e : Event, e.enabled s = true → (e.apply s).answers = s.answers) ∧
    (∀ (closure : State) (sess : Session) (now : ℤ) (env : SubmitEnv), sess.state = s →
      (Session.tick closure sess now env).state.answers = s.answers) := by
  have hno : ∀ (question : Question) (value : String),
      (Event.answer question value).enabled s = false := by
    intro question value
    simp [Event.enabled, rendersAnswerInputs_of_submission s hs]
  refine ⟨hno, ?_, ?_⟩
  · intro e hen
    apply (Event.apply_frame s e).2
    intro question value he
    rw [he, hno question value] at hen
    exact absurd hen (by simp)
  · intro closure sess now env hstate
    rw [Session.tick_answers, hstate]

/-- The assignment loaded with its prior submission: choosing a file is
offered and leaves the answer set unchanged. -/
theorem answers_fixed_after_submission_witness :
    (fetchAssessment (initialState "assessment-1") submittedAssignmentFetch).1.submission ≠ none ∧
    (Event.chooseFile (some { name := "essay.final.pdf" })).enabled
      (fetchAssessment (initialState "assessment-1") submittedAssignmentFetch).1 = true ∧
    ((Event.chooseFile (some { name := "essay.final.pdf" })).apply
      (fetchAssessment (initialState "assessment-1") submittedAssignmentFetch).1).answers
      = (fetchAssessment (initialState "assessment-1") submittedAssignmentFetch).1.answers :=
  ⟨by decide, by decide,
    (answers_fixed_after_submission
      (fetchAssessment (initialState "assessment-1") submittedAssignmentFetch).1
      (by decide)).2.1 _ (by decide)⟩

/-- C20 (evaluation at the failing input).  The questions read fails and
the other two reads succeed: the assessment is set, no error is reported
and the NotStarted view is rendered with an empty question list, not a
blocking error state; its Start button works, and starting and
submitting that empty quiz writes a record whose grade is `NaN`. -/
theorem fetchAssessment_failed_questions_read :
    failedQuestionsFetch.questions = none ∧
    (fetchAssessment (initialState "assessment-1") failedQuestionsFetch).1.assessment
      = some quizAssessment ∧
    (fetchAssessment (initialState "assessment-1") failedQuestionsFetch).1.questions = [] ∧
    (fetchAssessment (initialState "assessment-1") failedQuestionsFetch).2 = [] ∧
    view (fetchAssessment (initialState "assessment-1") failedQuestionsFetch).1
      = View.notStarted ∧
    Event.enabled (fetchAssessment (initialState "assessment-1") failedQuestionsFetch).1
      (Event.start 1700000000000) = true ∧
    (insertCalls
      (((Page.load "assessment-1" failedQuestionsFetch).dispatch
        (Event.start 1700000000000)).dispatch (Event.submit okEnv)).sess.calls).map
        (fun r => r.grade) = [some JsNumber.nan] := by
  refine ⟨by decide, by decide, by decide, by decide, by decide, by decide, ?_⟩
  decide

/-- If the assessment read fails on a freshly mounted session,
`fetchAssessment` reports the error and leaves the initial state with
`loading` false: the assessment is not set and the view is the not-found
screen, none of the NotStarted, InProgress and Reviewed views. -/
theorem fetchAssessment_failed_assessment_read (assessmentId : String) (env : FetchEnv)
    (user : String) (hu : env.user = some user) (ha : env.assessment = none) :
    fetchAssessment (initialState assessmentId) env =
      ({ initialState assessmentId with loading := false },
        [Effect.toastError "Failed to load assessment"]) ∧
    (fetchAssessment (initialState assessmentId) env).1.assessment = none ∧
    view (fetchAssessment (initialState assessmentId) env).1 = View.notFound ∧
    view (fetchAssessment (initialState assessmentId) env).1 ≠ View.notStarted ∧
    view (fetchAssessment (initialState assessmentId) env).1 ≠ View.inProgress ∧
    view (fetchAssessment (initialState assessmentId) env).1 ≠ View.review := by
  have h : fetchAssessment (initialState assessmentId) env =
      ({ initialState assessmentId with loading := false },
        [Effect.toastError "Failed to load assessment"]) := by
    unfold fetchAssessment
    rw [hu, ha]
  rw [h]
  simp [view, initialState]

/-- The quiz whose assessment read fails. -/
theorem fetchAssessment_failed_assessment_read_witness :
    (failedAssessmentFetch.user = some "student-1" ∧ failedAssessmentFetch.assessment = none) ∧
    view (fetchAssessment (initialState "assessment-1") failedAssessmentFetch).1
      = View.notFound :=
  ⟨⟨rfl, rfl⟩,
    (fetchAssessment_failed_assessment_read "assessment-1" failedAssessmentFetch "student-1"
      rfl rfl).2.2.1⟩

/-! ## Starting the session -/

/-- The cells `startAssessment` writes and the cells it leaves alone. -/
theorem startAssessment_fields (s : State) (now : ℤ) :
    (startAssessment s now).started = true ∧
    (startAssessment s now).startTime = some now ∧
    (startAssessment s now).answers = s.answers ∧
    (startAssessment s now).file = s.file ∧
    (startAssessment s now).submission = s.submission ∧
    (startAssessment s now).questions = s.questions ∧
    (startAssessment s now).assessment = s.assessment ∧
    (startAssessment s now).loading = s.loading := by
  unfold startAssessment
  dsimp only
  split
  · exact ⟨rfl, rfl, rfl, rfl, rfl, rfl, rfl, rfl⟩
  · split
    · exact ⟨rfl, rfl, rfl, rfl, rfl, rfl, rfl, rfl⟩
    · split_ifs <;> exact ⟨rfl, rfl, rfl, rfl, rfl, rfl, rfl, rfl⟩

/-- With a non-zero limit `startAssessment` shows the limit. -/
theorem startAssessment_timeRemaining_of_limit (s : State) (now : ℤ)
    (assessment : Assessment) (limit : ℕ) (ha : s.assessment = some assessment)
    (hl : assessment.time_limit = some limit) (h0 : limit ≠ 0) :
    (startAssessment s now).timeRemaining = some (limit : ℤ) := by
  obtain ⟨id, a, qs, ans, sub, tr, f, ld, sg, st, t0⟩ := s
  simp only at ha
  subst ha
  simp [startAssessment, hl, h0]

/-- Without a limit, or with limit 0, `startAssessment` does not touch
`timeRemaining`. -/
theorem startAssessment_timeRemaining_of_no_limit (s : State) (now : ℤ)
    (assessment : Assessment) (ha : s.assessment = some assessment)
    (hl : assessment.time_limit = none ∨ assessment.time_limit = some 0) :
    (startAssessment s now).timeRemaining = s.timeRemaining := by
  obtain ⟨id, a, qs, ans, sub, tr, f, ld, sg, st, t0⟩ := s
  simp only at ha
  subst ha
  rcases hl with hl | hl <;> simp [startAssessment, hl]

/-- The interval is installed exactly for a started state with a
non-zero limit and a non-zero start time. -/
theorem countdownArmed_eq_some (s : State) (assessment : Assessment) (limit : ℕ) (t : ℤ)
    (hs : s.started = true) (ha : s.assessment = some assessment)
    (hl : assessment.time_limit = some limit) (h0 : limit ≠ 0)
    (ht : s.startTime = some t) (htz : t ≠ 0) :
    countdownArmed s = some (limit, t) := by
  simp [countdownArmed, hs, ha, hl, h0, ht, htz]

/-- No interval is installed without a limit or with limit 0. -/
theorem countdownArmed_of_no_limit (s : State) (assessment : Assessment)
    (ha : s.assessment = some assessment)
    (hl : assessment.time_limit = none ∨ assessment.time_limit = some 0) :
    countdownArmed s = none := by
  rcases hl with hl | hl <;> simp [countdownArmed, ha, hl]

/-- C21.  `startAssessment` sets `started`, records the clock reading as
`startTime` and leaves `answers`, `file`, `submission`, `questions` and
`assessment` unchanged.  With a time limit (non-null and not 0)
`timeRemaining` becomes the limit and, for a non-zero clock reading, the
countdown effect installs its interval with that limit and start time;
without one `timeRemaining` keeps its value (null on a fresh session)
and no interval is installed.  From the NotStarted view the session
moves to the in-progress view. -/
theorem startAssessment_spec (s : State) (now : ℤ) :
    (startAssessment s now).started = true ∧
    (startAssessment s now).startTime = some now ∧
    (startAssessment s now).answers = s.answers ∧
    (startAssessment s now).file = s.file ∧
    (startAssessment s now).submission = s.submission ∧
    (startAssessment s now).questions = s.questions ∧
    (startAssessment s now).assessment = s.assessment ∧
    (∀ (assessment : Assessment) (limit : ℕ), s.assessment = some assessment →
      assessment.time_limit = some limit → limit ≠ 0 →
      (startAssessment s now).timeRemaining = some (limit : ℤ) ∧
      (now ≠ 0 → countdownArmed (startAssessment s now) = some (limit, now))) ∧
    (∀ assessment : Assessment, s.assessment = some assessment →
      (assessment.time_limit = none ∨ assessment.time_limit = some 0) →
      (startAssessment s now).timeRemaining = s.timeRemaining ∧
      (s.timeRemaining = none → (startAssessment s now).timeRemaining = none) ∧
      countdownArmed (startAssessment s now) = none) ∧
    (view s = View.notStarted → view (startAssessment s now) = View.inProgress) := by
  have hf := startAssessment_fields s now
  refine ⟨hf.1, hf.2.1, hf.2.2.1, hf.2.2.2.1, hf.2.2.2.2.1, hf.2.2.2.2.2.1,
    hf.2.2.2.2.2.2.1, ?_, ?_, ?_⟩
  · intro assessment limit ha hl h0
    refine ⟨startAssessment_timeRemaining_of_limit s now assessment limit ha hl h0, fun hn => ?_⟩
    exact countdownArmed_eq_some _ assessment limit now hf.1 (hf.2.2.2.2.2.2.1.trans ha) hl h0
      hf.2.1 hn
  · intro assessment ha hl
    have ht := startAssessment_timeRemaining_of_no_limit s now assessment ha hl
    exact ⟨ht, fun hnone => ht.trans hnone,
      countdownArmed_of_no_limit _ assessment (hf.2.2.2.2.2.2.1.trans ha) hl⟩
  · intro hv
    unfold view at hv ⊢
    rw [hf.2.2.2.2.2.2.2, hf.2.2.2.2.2.2.1, hf.2.2.2.2.1, hf.1]
    cases hload : s.loading with
    | true => simp [hload] at hv
    | false =>
      simp only [hload, Bool.false_eq_true, if_false] at hv ⊢
      cases ha : s.assessment with
      | none => simp [ha] at hv
      | some assessment =>
        simp only [ha] at hv ⊢
        split_ifs at hv ⊢ <;> simp_all

/-- The thirty-minute quiz loaded and started at `1700000000000` ms. -/
theorem startAssessment_spec_witness :
    ((fetchAssessment (initialState "assessment-1") quizFetch).1.assessment
        = some quizAssessment ∧
      quizAssessment.time_limit = some 30 ∧ (30 : ℕ) ≠ 0 ∧ (1700000000000 : ℤ) ≠ 0) ∧
    (startAssessment (fetchAssessment (initialState "assessment-1") quizFetch).1
      1700000000000).timeRemaining = some ((30 : ℕ) : ℤ) ∧
    countdownArmed (startAssessment (fetchAssessment (initialState "assessment-1") quizFetch).1
      1700000000000) = some (30, 1700000000000) :=
  have h := (startAssessment_spec (fetchAssessment (initialState "assessment-1") quizFetch).1
    1700000000000).2.2.2.2.2.2.2.1 quizAssessment 30 rfl rfl (by decide)
  ⟨⟨rfl, rfl, by decide, by decide⟩, h.1, h.2 (by decide)⟩

/-! ## Writes to the submission store -/

/-- A firing with remaining time above zero changes nothing but the
remaining time shown. -/
theorem Session.tick_of_remaining_pos (closure : State) (sess : Session) (now : ℤ)
    (env : SubmitEnv) (limit : ℕ) (startTime : ℤ)
    (harm : countdownArmed closure = some (limit, startTime))
    (hpos : 0 < (intervalCallback limit startTime now).timeRemaining) :
    (Session.tick closure sess now env).calls = sess.calls ∧
    (Session.tick closure sess now env).autoSubmits = sess.autoSubmits ∧
    (Session.tick closure sess now env).mounted = sess.mounted := by
  have hno : (intervalCallback limit startTime now).autoSubmit = false := by
    simp only [intervalCallback] at hpos ⊢
    simp only [decide_eq_false_iff_not, not_le]
    rcases lt_max_iff.mp hpos with h | h
    · exact absurd h (lt_irrefl 0)
    · exact h
  unfold Session.tick
  split_ifs with hm
  · rw [harm]
    simp [hno]
  · exact ⟨rfl, rfl, rfl⟩

/-- The calls a firing adds are those of `handleSubmit(true)` of the
closure, or none. -/
theorem Session.tick_calls (closure : State) (sess : Session) (now : ℤ) (env : SubmitEnv) :
    (Session.tick closure sess now env).calls = sess.calls ∨
    (Session.tick closure sess now env).calls
      = sess.calls ++ (handleSubmit closure env true).2 := by
  unfold Session.tick
  split_ifs with hm
  · cases countdownArmed closure with
    | none => left; rfl
    | some armed =>
      obtain ⟨limit, startTime⟩ := armed
      simp only
      split_ifs
      · right; rfl
      · left; rfl
  · left; rfl

/-- The calls an event adds are those of its handler. -/
theorem Page.dispatch_calls (p : Page) (e : Event) :
    (p.dispatch e).sess.calls = p.sess.calls ∨
    (p.dispatch e).sess.calls = p.sess.calls ++ e.calls p.sess.state := by
  unfold Page.dispatch
  split_ifs
  · right; rfl
  · left; rfl

/-- C22.  Starting a session writes nothing: the handlers of the start,
answer-change and file-choice events make no call at all, a firing of
the countdown with remaining time above zero makes none either, and
whenever a step of the page adds an insert call, the calls it added are
those of `handleSubmit` (the manual one of the rendered state, or the
forced one of the interval). -/
theorem no_write_before_submit :
    (∀ (s : State) (e : Event), (∀ env, e ≠ Event.submit env) → e.calls s = []) ∧
    (∀ (p : Page) (e : Event), (∀ env, e ≠ Event.submit env) →
      (p.dispatch e).sess.calls = p.sess.calls) ∧
    (∀ (closure : State) (sess : Session) (now : ℤ) (env : SubmitEnv) (limit : ℕ)
      (startTime : ℤ), countdownArmed closure = some (limit, startTime) →
      0 < (intervalCallback limit startTime now).timeRemaining →
      (Session.tick closure sess now env).calls = sess.calls) ∧
    (∀ (p : Page) (e : Event),
      insertCalls (p.dispatch e).sess.calls ≠ insertCalls p.sess.calls →
      ∃ env, e = Event.submit env ∧
        (p.dispatch e).sess.calls = p.sess.calls ++ (handleSubmit p.sess.state env false).2) ∧
    (∀ (p : Page) (now : ℤ) (env : SubmitEnv),
      insertCalls (p.tick now env).sess.calls ≠ insertCalls p.sess.calls →
      (p.tick now env).sess.calls = p.sess.calls ++ (handleSubmit p.closure env true).2) := by
  have hcalls : ∀ (s : State) (e : Event), (∀ env, e ≠ Event.submit env) → e.calls s = [] := by
    intro s e hne
    cases e with
    | submit env => exact absurd rfl (hne env)
    | start now => rfl
    | answer question value => rfl
    | chooseFile chosen => rfl
  refine ⟨hcalls, ?_, ?_, ?_, ?_⟩
  · intro p e hne
    rcases Page.dispatch_calls p e with h | h
    · exact h
    · rw [h, hcalls p.sess.state e hne, List.append_nil]
  · intro closure sess now env limit startTime harm hpos
    exact (Session.tick_of_remaining_pos closure sess now env limit startTime harm hpos).1
  · intro p e hdiff
    rcases Page.dispatch_calls p e with h | h
    · rw [h] at hdiff; exact absurd rfl hdiff
    · cases e with
      | submit env => exact ⟨env, rfl, h⟩
      | start now => rw [h] at hdiff; simp [Event.calls] at hdiff
      | answer question value => rw [h] at hdiff; simp [Event.calls] at hdiff
      | chooseFile chosen => rw [h] at hdiff; simp [Event.calls] at hdiff
  · intro p now env hdiff
    rcases Session.tick_calls p.closure p.sess now env with h | h
    · have : (p.tick now env).sess.calls = p.sess.calls := h
      rw [this] at hdiff; exact absurd rfl hdiff
    · exact h

/-- The quiz loaded and then started: no call has been made. -/
theorem no_write_before_submit_witness :
    (Page.load "assessment-1" quizFetch).sess.calls = [] ∧
    startedPage.sess.calls = (Page.load "assessment-1" quizFetch).sess.calls :=
  ⟨by decide,
    no_write_before_submit.2.1 (Page.load "assessment-1" quizFetch) (Event.start 1700000000000)
      (fun env h => by cases h)⟩

/-! ## The in-flight flag -/

theorem setSubmitting_not_mem_uploadPhase (s : State) (env : SubmitEnv) (user : String)
    (flag : Bool) : Effect.setSubmitting flag ∉ (uploadPhase s env user).1 := by
  unfold uploadPhase
  cases s.file with
  | none => simp
  | some file =>
    cases s.assessment with
    | none => simp
    | some assessment =>
      simp only
      split_ifs <;> simp

theorem setSubmitting_not_mem_tryBody (s : State) (env : SubmitEnv) (flag : Bool) :
    Effect.setSubmitting flag ∉ (tryBody s env).1 := by
  unfold tryBody
  cases env.user with
  | none => simp
  | some user =>
    simp only
    have hup := setSubmitting_not_mem_uploadPhase s env user flag
    rcases hphase : uploadPhase s env user with ⟨calls, _ | fileUrl⟩
    · rw [hphase] at hup; simpa using hup
    · rw [hphase] at hup
      simp only at hup ⊢
      cases s.assessment with
      | none => simpa using hup
      | some assessment =>
        simp only
        split_ifs <;> simp [hup]

/-- C23.  A `handleSubmit` that passes its guard calls
`setSubmitting(true)` first and `setSubmitting(false)` last, with every
upload, `createSignedUrl` and insert call in between and no other
`setSubmitting` call, and leaves `submitting` false, whatever the
outcome of the services; a `handleSubmit` stopped by the guard makes no
upload or insert and does not touch the flag. -/
theorem handleSubmit_flag_brackets (s : State) (env : SubmitEnv) (autoSubmit : Bool) :
    ((s.submission.isSome && !autoSubmit) = false →
      (∃ middle : List Effect,
        (handleSubmit s env autoSubmit).2
          = Effect.setSubmitting true :: (middle ++ [Effect.setSubmitting false]) ∧
        (∀ flag : Bool, Effect.setSubmitting flag ∉ middle) ∧
        insertCalls (handleSubmit s env autoSubmit).2 = insertCalls middle ∧
        uploadCalls (handleSubmit s env autoSubmit).2 = uploadCalls middle) ∧
      (handleSubmit s env autoSubmit).1.submitting = false) ∧
    ((s.submission.isSome && !autoSubmit) = true →
      insertCalls (handleSubmit s env autoSubmit).2 = [] ∧
      uploadCalls (handleSubmit s env autoSubmit).2 = [] ∧
      (handleSubmit s env autoSubmit).1 = s) := by
  constructor
  · intro hg
    unfold handleSubmit
    rw [hg]
    simp only [Bool.false_eq_true, if_false]
    refine ⟨⟨(tryBody s env).1 ++
      (if (tryBody s env).2 then [Effect.toastError "Failed to submit assessment"] else []),
      by simp, ?_, ?_, ?_⟩, trivial⟩
    · intro flag hmem
      rcases List.mem_append.mp hmem with h | h
      · exact setSubmitting_not_mem_tryBody s env flag h
      · split_ifs at h <;> simp at h
    · simp [insertCalls, List.filterMap_append]
    · simp [uploadCalls, List.filterMap_append]
  · intro hg
    unfold handleSubmit
    rw [hg]
    exact ⟨rfl, rfl, rfl⟩

/-- The assignment with a file and working services: the flag is set
before the upload and the insert, and cleared after them. -/
theorem handleSubmit_flag_brackets_witness :
    (assignmentWithFile.submission.isSome && !false) = false ∧
    (∃ middle : List Effect,
      (handleSubmit assignmentWithFile okEnv false).2
        = Effect.setSubmitting true :: (middle ++ [Effect.setSubmitting false]) ∧
      (∀ flag : Bool, Effect.setSubmitting flag ∉ middle) ∧
      insertCalls (handleSubmit assignmentWithFile okEnv false).2 = insertCalls middle ∧
      uploadCalls (handleSubmit assignmentWithFile okEnv false).2 = uploadCalls middle) ∧
    (handleSubmit assignmentWithFile okEnv false).1.submitting = false :=
  ⟨rfl, (handleSubmit_flag_brackets assignmentWithFile okEnv false).1 rfl⟩

/-! ## When the countdown submits, and the elapsed time stored -/

/-- C24.  For timestamps less than `2 ^ 51` ms apart, a firing of the
countdown calls `handleSubmit(true)` if and only if
`limit - floor((now - startTime) / 60000) ≤ 0`; a firing that shows a
remaining time above zero does not submit; and on a mounted page with
the interval installed the number of forced submits grows by one exactly
in the first case. -/
theorem intervalCallback_autoSubmit_iff (limit : ℕ) (startTime now : ℤ)
    (h : |now - startTime| < 2 ^ 51) :
    ((intervalCallback limit startTime now).autoSubmit = true ↔
      (limit : ℤ) - ⌊((now - startTime : ℤ) : ℚ) / 60000⌋ ≤ 0) ∧
    (0 < (intervalCallback limit startTime now).timeRemaining →
      (intervalCallback limit startTime now).autoSubmit = false) ∧
    (∀ (closure : State) (sess : Session) (env : SubmitEnv), sess.mounted = true →
      countdownArmed closure = some (limit, startTime) →
      (Session.tick closure sess now env).autoSubmits =
        if (limit : ℤ) - ⌊((now - startTime : ℤ) : ℚ) / 60000⌋ ≤ 0
        then sess.autoSubmits + 1 else sess.autoSubmits) := by
  have hiff : (intervalCallback limit startTime now).autoSubmit = true ↔
      (limit : ℤ) - ⌊((now - startTime : ℤ) : ℚ) / 60000⌋ ≤ 0 := by
    simp only [intervalCallback, elapsedMinutes_eq now startTime h, decide_eq_true_eq]
  refine ⟨hiff, ?_, ?_⟩
  · intro hpos
    simp only [intervalCallback] at hpos ⊢
    simp only [decide_eq_false_iff_not, not_le]
    rcases lt_max_iff.mp hpos with h1 | h1
    · exact absurd h1 (lt_irrefl 0)
    · exact h1
  · intro closure sess env hm harm
    unfold Session.tick
    rw [hm, harm]
    simp only [if_true]
    by_cases hc : (limit : ℤ) - ⌊((now - startTime : ℤ) : ℚ) / 60000⌋ ≤ 0
    · rw [if_pos (hiff.mpr hc), if_pos hc]
    · have hfalse : (intervalCallback limit startTime now).autoSubmit = false := by
        cases hval : (intervalCallback limit startTime now).autoSubmit with
        | false => rfl
        | true => exact absurd (hiff.mp hval) hc
      rw [hfalse, if_neg hc]
      rfl

theorem floor_10_minutes :
    ⌊(((1700000600000 : ℤ) - 1700000000000 : ℤ) : ℚ) / 60000⌋ = 10 := by
  rw [Int.floor_eq_iff]; norm_num

/-- Ten minutes into a thirty-minute quiz the firing does not submit. -/
theorem intervalCallback_autoSubmit_iff_witness :
    |(1700000600000 : ℤ) - 1700000000000| < 2 ^ 51 ∧
    ((intervalCallback 30 1700000000000 1700000600000).autoSubmit = true ↔
      ((30 : ℕ) : ℤ) - ⌊(((1700000600000 : ℤ) - 1700000000000 : ℤ) : ℚ) / 60000⌋ ≤ 0) ∧
    ¬ (((30 : ℕ) : ℤ) - ⌊(((1700000600000 : ℤ) - 1700000000000 : ℤ) : ℚ) / 60000⌋ ≤ 0) :=
  ⟨by norm_num,
    (intervalCallback_autoSubmit_iff 30 1700000000000 1700000600000 (by norm_num)).1,
    by rw [floor_10_minutes]; norm_num⟩

/-- The `time_taken` of every inserted record is computed from the start
time of the render and the clock at the insert. -/
theorem time_taken_of_mem_insertCalls {s : State} {env : SubmitEnv} {autoSubmit : Bool}
    {record : SubmissionRecord}
    (h : record ∈ insertCalls (handleSubmit s env autoSubmit).2) :
    record.time_taken = timeTaken s.startTime env.submitNow := by
  obtain ⟨user, assessment, fileUrl, -, -, -, hr⟩ := mem_insertCalls_handleSubmit h
  rw [hr]; rfl

/-- C25.  In every record `handleSubmit` inserts, `time_taken` is null
when the session has no start timestamp, and for a start timestamp `t`
(a non-zero clock reading less than `2 ^ 51` ms from the clock at the
insert) it is `floor((now - t) / 60000)`, which is non-negative for
`now ≥ t`. -/
theorem handleSubmit_time_taken (s : State) (env : SubmitEnv) (autoSubmit : Bool)
    (record : SubmissionRecord)
    (h : record ∈ insertCalls (handleSubmit s env autoSubmit).2) :
    (s.startTime = none → record.time_taken = none) ∧
    (∀ t : ℤ, s.startTime = some t → t ≠ 0 → |env.submitNow - t| < 2 ^ 51 →
      record.time_taken = some ⌊((env.submitNow - t : ℤ) : ℚ) / 60000⌋ ∧
      (t ≤ env.submitNow → 0 ≤ ⌊((env.submitNow - t : ℤ) : ℚ) / 60000⌋)) := by
  have ht := time_taken_of_mem_insertCalls h
  constructor
  · intro hnone
    rw [ht, hnone]; rfl
  · intro t hsome hne hrange
    constructor
    · rw [ht, hsome]
      simp only [timeTaken, hne, if_false]
      rw [elapsedMinutes_eq env.submitNow t hrange]
    · intro hle
      apply Int.floor_nonneg.mpr
      have : (0 : ℚ) ≤ ((env.submitNow - t : ℤ) : ℚ) := by
        exact_mod_cast sub_nonneg.mpr hle
      positivity

/-- The quiz submitted ten minutes after its start: the record holds
`time_taken = 10`. -/
theorem handleSubmit_time_taken_witness :
    buildRecord (inProgress quizAssessment twoQuestions [("q1", "A")]) okEnv "student-1"
        quizAssessment none
      ∈ insertCalls (handleSubmit (inProgress quizAssessment twoQuestions [("q1", "A")])
          okEnv false).2 ∧
    (buildRecord (inProgress quizAssessment twoQuestions [("q1", "A")]) okEnv "student-1"
        quizAssessment none).time_taken = some 10 :=
  have hmem : buildRecord (inProgress quizAssessment twoQuestions [("q1", "A")]) okEnv
        "student-1" quizAssessment none
      ∈ insertCalls (handleSubmit (inProgress quizAssessment twoQuestions [("q1", "A")])
          okEnv false).2 := by
    rw [insertCalls_handleSubmit_of_no_file (inProgress quizAssessment twoQuestions [("q1", "A")])
      okEnv false "student-1" quizAssessment rfl rfl rfl rfl]
    simp
  have h := (handleSubmit_time_taken _ okEnv false _ hmem).2 1700000000000 rfl (by norm_num)
    (by norm_num [okEnv])
  ⟨hmem, by
    rw [h.1]
    have e : okEnv.submitNow = 1700000600000 := rfl
    rw [e, floor_10_minutes]⟩

/-! ## Review flags and grading -/

/-- The review view flags a question with the predicate the grading loop
counts with. -/
theorem reviewIsCorrect_eq_isCorrect (answers : AnswerSet) (question : Question) :
    reviewIsCorrect answers question = isCorrect answers question := rfl

/-- The quiz grade is the percentage of the questions flagged in
review. -/
theorem quizGrade_eq_percentage_flagged (questions : List Question) (answers : AnswerSet) :
    quizGrade questions answers
      = percentage (questions.countP (reviewIsCorrect answers)) questions.length := by
  unfold quizGrade
  rw [correctCount_eq_countP]
  rfl

/-- C26 (evaluation at the failing input).  Forty questions of which
twenty-three are answered correctly: the review view flags exactly the 23
questions the grading loop counts, and the grade computed from those
answers is 57, while `round(100 * 23 / 40)` is 58. -/
theorem review_flags_23_of_40 :
    (∀ q ∈ fortyQuestions,
      reviewIsCorrect twentyThreeAnswers q = isCorrect twentyThreeAnswers q) ∧
    fortyQuestions.countP (reviewIsCorrect twentyThreeAnswers) = 23 ∧
    fortyQuestions.length = 40 ∧
    quizGrade fortyQuestions twentyThreeAnswers = JsNumber.fin 57 ∧
    round ((100 * 23 : ℚ) / 40) = 58 := by
  have hc : fortyQuestions.countP (reviewIsCorrect twentyThreeAnswers) = 23 := by decide
  have hl : fortyQuestions.length = 40 := by decide
  refine ⟨fun q _ => rfl, hc, hl, ?_, ?_⟩
  · rw [quizGrade_eq_percentage_flagged, hc, hl]
    exact percentage_23_40
  · rw [round_eq, Int.floor_eq_iff]; norm_num

/-! ## Monotonicity of rounding -/

theorem roundHalfEven_mono {a b : ℚ} (h : a ≤ b) : roundHalfEven a ≤ roundHalfEven b := by
  by_contra hlt
  have hlt2 : roundHalfEven b + 1 ≤ roundHalfEven a := by omega
  have h1 := roundHalfEven_le a
  have h2 := le_roundHalfEven b
  have h3 : ((roundHalfEven b : ℤ) : ℚ) + 1 ≤ (roundHalfEven a : ℚ) := by exact_mod_cast hlt2
  have hab : a = b := by linarith
  rw [hab] at hlt
  exact hlt le_rfl

theorem ilog2_mono {x y : ℚ} (hx : 0 < x) (h : x ≤ y) : ilog2 x ≤ ilog2 y := by
  have hy : 0 < y := lt_of_lt_of_le hx h
  have h1 := zpow_ilog2_le hx.ne'
  have h2 := lt_zpow_ilog2 hy.ne'
  rw [abs_of_pos hx] at h1
  rw [abs_of_pos hy] at h2
  have h3 : (2 : ℚ) ^ ilog2 x < (2 : ℚ) ^ (ilog2 y + 1) := by linarith
  have h4 : ilog2 x < ilog2 y + 1 := (zpow_lt_zpow_iff_right₀ (by norm_num)).mp h3
  omega

/-- Rounding to binary64 is monotone on the non-negative rationals. -/
theorem fl_mono {x y : ℚ} (h0 : 0 ≤ x) (h : x ≤ y) : fl x ≤ fl y := by
  rcases eq_or_lt_of_le h0 with hx0 | hxpos
  · rw [← hx0, fl_zero]
    exact fl_nonneg (h0.trans h)
  · have hypos : 0 < y := lt_of_lt_of_le hxpos h
    have hlog := ilog2_mono hxpos h
    rcases eq_or_lt_of_le (max_le_max hlog (le_refl (-1022 : ℤ))) with he | he
    · rw [fl_eq x hxpos.ne', fl_eq y hypos.ne', he]
      have hq : (0 : ℚ) < (2 : ℚ) ^ (max (ilog2 y) (-1022) - 52) := by positivity
      have hdiv : x / (2 : ℚ) ^ (max (ilog2 y) (-1022) - 52)
          ≤ y / (2 : ℚ) ^ (max (ilog2 y) (-1022) - 52) :=
        div_le_div_of_nonneg_right h hq.le
      have hr := roundHalfEven_mono hdiv
      have hr2 : ((roundHalfEven (x / (2 : ℚ) ^ (max (ilog2 y) (-1022) - 52)) : ℤ) : ℚ)
          ≤ (roundHalfEven (y / (2 : ℚ) ^ (max (ilog2 y) (-1022) - 52)) : ℚ) := by
        exact_mod_cast hr
      exact mul_le_mul_of_nonneg_right hr2 hq.le
    · have hey : max (ilog2 y) (-1022) = ilog2 y := by
        rcases le_total (ilog2 y) (-1022) with hc | hc
        · rw [max_eq_right hc] at he
          have := le_max_right (ilog2 x) (-1022)
          omega
        · exact max_eq_left hc
      have hxlt : x < (2 : ℚ) ^ (max (ilog2 x) (-1022) + 1) := by
        have h2 := lt_zpow_ilog2 hxpos.ne'
        rw [abs_of_pos hxpos] at h2
        have : (2 : ℚ) ^ (ilog2 x + 1) ≤ (2 : ℚ) ^ (max (ilog2 x) (-1022) + 1) :=
          zpow_le_zpow_right₀ (by norm_num) (by have := le_max_left (ilog2 x) (-1022); omega)
        linarith
      have hsplit : ∀ e : ℤ, (2 : ℚ) ^ (e + 1) = ((2 ^ 53 : ℤ) : ℚ) * (2 : ℚ) ^ (e - 52) := by
        intro e
        have : e + 1 = 53 + (e - 52) := by ring
        rw [this, zpow_add₀ (by norm_num)]
        norm_num
      have hsplit2 : ∀ e : ℤ, (2 : ℚ) ^ e = ((2 ^ 52 : ℤ) : ℚ) * (2 : ℚ) ^ (e - 52) := by
        intro e
        have : e = 52 + (e - 52) := by ring
        conv_lhs => rw [this, zpow_add₀ (by norm_num : (2 : ℚ) ≠ 0)]
        norm_num
      have hupper : fl x ≤ (2 : ℚ) ^ (max (ilog2 x) (-1022) + 1) := by
        rw [hsplit]
        apply fl_le_of_le_mul hxpos.ne'
        rw [← hsplit]
        exact hxlt.le
      have hlower : (2 : ℚ) ^ (max (ilog2 y) (-1022)) ≤ fl y := by
        rw [hsplit2]
        apply le_fl_of_mul_le hypos.ne'
        rw [← hsplit2, hey]
        have h1 := zpow_ilog2_le hypos.ne'
        rwa [abs_of_pos hypos] at h1
      have hmid : (2 : ℚ) ^ (max (ilog2 x) (-1022) + 1) ≤ (2 : ℚ) ^ (max (ilog2 y) (-1022)) :=
        zpow_le_zpow_right₀ (by norm_num) (by omega)
      linarith

/-- The percentage does not decrease when the correct count grows. -/
theorem percentage_mono {c d length : ℕ} (hl : length ≠ 0) (h : c ≤ d) :
    ∃ g k : ℤ, percentage c length = JsNumber.fin (g : ℚ) ∧
      percentage d length = JsNumber.fin (k : ℚ) ∧ g ≤ k := by
  refine ⟨_, _, percentage_eq hl, percentage_eq hl, ?_⟩
  have hpos : (0 : ℚ) < length := by exact_mod_cast Nat.pos_of_ne_zero hl
  have h1 : (c : ℚ) / (length : ℚ) ≤ (d : ℚ) / (length : ℚ) :=
    div_le_div_of_nonneg_right (by exact_mod_cast h) hpos.le
  have h2 : fl ((c : ℚ) / (length : ℚ)) ≤ fl ((d : ℚ) / (length : ℚ)) :=
    fl_mono (by positivity) h1
  have h3 : 0 ≤ fl ((c : ℚ) / (length : ℚ)) := fl_nonneg (by positivity)
  have h4 : fl (fl ((c : ℚ) / (length : ℚ)) * 100) ≤ fl (fl ((d : ℚ) / (length : ℚ)) * 100) :=
    fl_mono (by positivity) (by linarith)
  exact Int.floor_mono (by linarith)

/-! ## The grade as a function of the answers -/

/-- Whether a question counts depends only on the answer recorded under
its identifier. -/
theorem isCorrect_congr (answers other : AnswerSet) (question : Question)
    (h : other.get question.id = answers.get question.id) :
    isCorrect other question = isCorrect answers question := by
  unfold isCorrect
  rw [h]

/-- Recording a question's correct answer keeps every counted question
counted, when question identifiers are distinct. -/
theorem isCorrect_set_of_isCorrect (questions : List Question) (answers : AnswerSet)
    (question : Question) (c : String)
    (hnodup : (questions.map fun q => q.id).Nodup) (hq : question ∈ questions)
    (hc : question.correct_answer = some c) (other : Question) (ho : other ∈ questions)
    (h : isCorrect answers other = true) :
    isCorrect (answers.set question.id c) other = true := by
  by_cases hid : other.id = question.id
  · have heq : other = question := List.inj_on_of_nodup_map hnodup ho hq hid
    subst heq
    unfold isCorrect at h ⊢
    rw [AnswerSet.get_set_self, hc]
    rw [hc] at h
    simp only [Bool.and_eq_true] at h ⊢
    exact ⟨h.1, by simp [strictEq]⟩
  · rw [isCorrect_congr answers (answers.set question.id c) other
      (AnswerSet.get_set_other answers question.id c other.id hid)]
    exact h

/-- C27.  For a non-empty question list with distinct identifiers,
recording a question's correct answer under its identifier (whatever was
recorded there before) and leaving all other answers unchanged does not
lower the grade; and two answer sets that agree on the identifiers of
the question list are graded the same. -/
theorem quizGrade_monotone (questions : List Question) (answers : AnswerSet)
    (hne : questions ≠ []) :
    (∀ (question : Question) (c : String), (questions.map fun q => q.id).Nodup →
      question ∈ questions → question.correct_answer = some c →
      ∃ g k : ℤ, quizGrade questions answers = JsNumber.fin (g : ℚ) ∧
        quizGrade questions (answers.set question.id c) = JsNumber.fin (k : ℚ) ∧ g ≤ k) ∧
    (∀ other : AnswerSet, (∀ q ∈ questions, other.get q.id = answers.get q.id) →
      quizGrade questions other = quizGrade questions answers) := by
  constructor
  · intro question c hnodup hq hc
    have hcount : correctCount questions answers
        ≤ correctCount questions (answers.set question.id c) := by
      rw [correctCount_eq_countP, correctCount_eq_countP]
      apply List.countP_mono_left
      intro other ho h
      exact isCorrect_set_of_isCorrect questions answers question c hnodup hq hc other ho h
    exact percentage_mono (by simpa using hne) hcount
  · intro other hagree
    unfold quizGrade
    rw [correctCount_eq_countP, correctCount_eq_countP]
    congr 1
    apply List.countP_congr
    intro q hq
    rw [isCorrect_congr answers other q (hagree q hq)]

/-- The two-question quiz with `q1` answered wrongly, then corrected:
the grade rises from 50 to 100. -/
theorem quizGrade_monotone_witness :
    twoQuestions ≠ [] ∧
    (twoQuestions.map fun q => q.id).Nodup ∧
    ∃ g k : ℤ, quizGrade twoQuestions [("q1", "C"), ("q2", "B")] = JsNumber.fin (g : ℚ) ∧
      quizGrade twoQuestions (AnswerSet.set [("q1", "C"), ("q2", "B")] "q1" "A")
        = JsNumber.fin (k : ℚ) ∧ g ≤ k :=
  ⟨by decide, by decide,
    (quizGrade_monotone twoQuestions [("q1", "C"), ("q2", "B")] (by decide)).1
      { id := "q1", type := "multiple_choice", correct_answer := some "A" } "A"
      (by decide) (by decide) rfl⟩

/-! ## Runs of the page: what never changes -/

/-- `handleSubmit` changes at most the `submitting` cell. -/
theorem handleSubmit_state (s : State) (env : SubmitEnv) (autoSubmit : Bool) :
    (handleSubmit s env autoSubmit).1 = s ∨
    (handleSubmit s env autoSubmit).1 = { s with submitting := false } := by
  unfold handleSubmit
  split_ifs
  · left; rfl
  · right; rfl

/-- No event changes the assessment or the submission, and only the
start event changes `started`, `startTime` and `timeRemaining`. -/
theorem Event.apply_keeps (s : State) (e : Event) :
    (e.apply s).assessment = s.assessment ∧
    (e.apply s).submission = s.submission ∧
    ((∀ now, e ≠ Event.start now) →
      (e.apply s).started = s.started ∧
      (e.apply s).startTime = s.startTime ∧
      (e.apply s).timeRemaining = s.timeRemaining) := by
  cases e with
  | start now =>
    have hf := startAssessment_fields s now
    exact ⟨hf.2.2.2.2.2.2.1, hf.2.2.2.2.1, fun h => absurd rfl (h now)⟩
  | answer question value => exact ⟨rfl, rfl, fun _ => ⟨rfl, rfl, rfl⟩⟩
  | chooseFile chosen => exact ⟨rfl, rfl, fun _ => ⟨rfl, rfl, rfl⟩⟩
  | submit env =>
    simp only [Event.apply]
    rcases handleSubmit_state s env false with h | h <;> rw [h] <;>
      exact ⟨rfl, rfl, fun _ => ⟨rfl, rfl, rfl⟩⟩

/-- A firing does nothing when the closure installed no interval. -/
theorem Page.tick_of_not_armed (p : Page) (now : ℤ) (env : SubmitEnv)
    (h : countdownArmed p.closure = none) : p.tick now env = p := by
  unfold Page.tick Session.tick
  rw [h]
  simp

/-- The closure after an event is the closure before it or the new
state. -/
theorem Page.dispatch_closure (p : Page) (e : Event) :
    (p.dispatch e).closure = p.closure ∨
    ((p.dispatch e).closure = (p.dispatch e).sess.state ∧
      (p.dispatch e).sess.state = e.apply p.sess.state) := by
  unfold Page.dispatch
  by_cases h : (p.sess.mounted && e.enabled p.sess.state) = true
  · simp only [h, if_true]
    by_cases hd : effectDeps (e.apply p.sess.state) = effectDeps p.sess.state
    · left; simp [hd]
    · right; simp [hd]
  · left; simp [h]

/-- The state after an event is the state before it (the event is not
offered) or the one its handler leaves, and the count of forced submits
is unchanged. -/
theorem Page.dispatch_state (p : Page) (e : Event) :
    ((p.dispatch e).sess.state = p.sess.state ∨
      (e.enabled p.sess.state = true ∧ (p.dispatch e).sess.state = e.apply p.sess.state)) ∧
    (p.dispatch e).sess.autoSubmits = p.sess.autoSubmits := by
  unfold Page.dispatch
  split_ifs with h
  · simp only [Bool.and_eq_true] at h
    exact ⟨Or.inr ⟨h.2, rfl⟩, rfl⟩
  · exact ⟨Or.inl rfl, rfl⟩

/-- A started state renders no Start Assessment button. -/
theorem startButton_of_started (s : State) (h : s.started = true) :
    (view s).startButton = false := by
  obtain ⟨id, a, qs, ans, sub, tr, f, ld, sg, st, t0⟩ := s
  simp only at h
  subst h
  unfold view
  cases ld <;> cases a <;> simp [View.startButton]
  split_ifs <;> rfl

theorem countdownArmed_of_no_startTime (s : State) (h : s.startTime = none) :
    countdownArmed s = none := by
  obtain ⟨id, a, qs, ans, sub, tr, f, ld, sg, st, t0⟩ := s
  simp only at h
  subst h
  unfold countdownArmed
  cases st <;> cases a <;> simp
  rename_i assessment
  cases assessment.time_limit <;> simp

/-- C28.  With `time_limit = 0`, `startAssessment` does not touch
`timeRemaining` and the started state installs no interval; and on a
page freshly loaded with such an assessment, whatever the student does
and whenever the clock fires, `timeRemaining` stays null, no interval
is installed and `handleSubmit(true)` is never called. -/
theorem zero_limit_never_submits (assessmentId : String) (env : FetchEnv) (user : String)
    (assessment : Assessment) (hu : env.user = some user)
    (ha : env.assessment = some assessment) (h0 : assessment.time_limit = some 0) :
    (∀ (s : State) (now : ℤ), s.assessment = some assessment →
      (startAssessment s now).timeRemaining = s.timeRemaining ∧
      countdownArmed (startAssessment s now) = none) ∧
    (∀ steps : List Step,
      ((Page.load assessmentId env).run steps).sess.state.timeRemaining = none ∧
      countdownArmed ((Page.load assessmentId env).run steps).closure = none ∧
      countdownArmed ((Page.load assessmentId env).run steps).sess.state = none ∧
      ((Page.load assessmentId env).run steps).sess.autoSubmits = 0) := by
  constructor
  · intro s now hs
    have hf := startAssessment_fields s now
    exact ⟨startAssessment_timeRemaining_of_no_limit s now assessment hs (Or.inr h0),
      countdownArmed_of_no_limit _ assessment (hf.2.2.2.2.2.2.1.trans hs) (Or.inr h0)⟩
  · have hinv : ∀ (steps : List Step) (p : Page),
        (p.sess.state.assessment = some assessment ∧ p.closure.assessment = some assessment ∧
          p.sess.state.timeRemaining = none ∧ p.sess.autoSubmits = 0) →
        ((p.run steps).sess.state.assessment = some assessment ∧
          (p.run steps).closure.assessment = some assessment ∧
          (p.run steps).sess.state.timeRemaining = none ∧
          (p.run steps).sess.autoSubmits = 0) := by
      intro steps
      induction steps with
      | nil => intro p h; exact h
      | cons step rest ih =>
        intro p h
        obtain ⟨h1, h2, h3, h4⟩ := h
        have hrun : p.run (step :: rest) = (p.step step).run rest := rfl
        rw [hrun]
        apply ih
        cases step with
        | tick now env =>
          have : p.step (Step.tick now env) = p :=
            Page.tick_of_not_armed p now env
              (countdownArmed_of_no_limit _ assessment h2 (Or.inr h0))
          rw [this]
          exact ⟨h1, h2, h3, h4⟩
        | event e =>
          have hst := Page.dispatch_state p e
          have hcl := Page.dispatch_closure p e
          have hkeep := Event.apply_keeps p.sess.state e
          have hstate : (p.dispatch e).sess.state.assessment = some assessment ∧
              (p.dispatch e).sess.state.timeRemaining = none := by
            rcases hst.1 with hs | ⟨-, hs⟩
            · rw [hs]; exact ⟨h1, h3⟩
            · rw [hs]
              refine ⟨hkeep.1.trans h1, ?_⟩
              cases e with
              | start now =>
                exact (startAssessment_timeRemaining_of_no_limit p.sess.state now assessment
                  h1 (Or.inr h0)).trans h3
              | answer question value => exact h3
              | chooseFile chosen => exact h3
              | submit senv =>
                exact (hkeep.2.2 (fun now h => by cases h)).2.2.trans h3
          refine ⟨hstate.1, ?_, hstate.2, hst.2.trans h4⟩
          rcases hcl with hc | ⟨hc, -⟩
          · show (p.dispatch e).closure.assessment = some assessment
            rw [hc]; exact h2
          · show (p.dispatch e).closure.assessment = some assessment
            rw [hc]; exact hstate.1
    intro steps
    have hload : (Page.load assessmentId env).sess.state.assessment = some assessment ∧
        (Page.load assessmentId env).closure.assessment = some assessment ∧
        (Page.load assessmentId env).sess.state.timeRemaining = none ∧
        (Page.load assessmentId env).sess.autoSubmits = 0 := by
      unfold Page.load freshSession
      cases hp : env.submission with
      | none =>
        rw [fetchAssessment_without_submission _ env user assessment hu ha hp]
        exact ⟨rfl, rfl, rfl, rfl⟩
      | some prior =>
        rw [fetchAssessment_with_submission _ env user assessment prior hu ha hp]
        exact ⟨rfl, rfl, rfl, rfl⟩
    obtain ⟨r1, r2, r3, r4⟩ := hinv steps _ hload
    exact ⟨r3, countdownArmed_of_no_limit _ assessment r2 (Or.inr h0),
      countdownArmed_of_no_limit _ assessment r1 (Or.inr h0), r4⟩

/-- The quiz with limit 0, started and left for an hour. -/
theorem zero_limit_never_submits_witness :
    (zeroLimitFetch.user = some "student-1" ∧ zeroLimitFetch.assessment = some zeroLimitQuiz ∧
      zeroLimitQuiz.time_limit = some 0) ∧
    ((Page.load "assessment-1" zeroLimitFetch).run
      [Step.event (Event.start 1700000000000), Step.tick 1700003600000 okEnv]).sess.autoSubmits
      = 0 :=
  ⟨⟨rfl, rfl, rfl⟩,
    ((zero_limit_never_submits "assessment-1" zeroLimitFetch "student-1" zeroLimitQuiz
      rfl rfl rfl).2
      [Step.event (Event.start 1700000000000), Step.tick 1700003600000 okEnv]).2.2.2⟩

/-- On a fresh session `fetchAssessment` leaves `startTime` null, and
`started` true whenever it stored a submission. -/
theorem fetchAssessment_fresh (assessmentId : String) (env : FetchEnv) :
    (fetchAssessment (initialState assessmentId) env).1.startTime = none ∧
    ((fetchAssessment (initialState assessmentId) env).1.submission ≠ none →
      (fetchAssessment (initialState assessmentId) env).1.started = true) := by
  unfold fetchAssessment
  cases env.user with
  | none => exact ⟨rfl, fun h => absurd rfl h⟩
  | some user =>
    cases env.assessment with
    | none => exact ⟨rfl, fun h => absurd rfl h⟩
    | some assessment =>
      cases env.submission with
      | none => exact ⟨rfl, fun h => absurd rfl h⟩
      | some prior => exact ⟨rfl, fun _ => rfl⟩

theorem Session.tick_submission (closure : State) (sess : Session) (now : ℤ) (env : SubmitEnv) :
    (Session.tick closure sess now env).state.submission = sess.state.submission := by
  unfold Session.tick
  split_ifs with hm
  · cases countdownArmed closure with
    | none => rfl
    | some armed =>
      obtain ⟨limit, startTime⟩ := armed
      simp only
      split_ifs <;> rfl
  · rfl

/-- The submission in the state and in the closure never changes during
a run of the page. -/
theorem Page.run_submission (steps : List Step) (p : Page)
    (h : p.closure.submission = p.sess.state.submission) :
    (p.run steps).sess.state.submission = p.sess.state.submission ∧
    (p.run steps).closure.submission = p.sess.state.submission := by
  induction steps generalizing p with
  | nil => exact ⟨rfl, h⟩
  | cons step rest ih =>
    have hrun : p.run (step :: rest) = (p.step step).run rest := rfl
    rw [hrun]
    have hstep : (p.step step).sess.state.submission = p.sess.state.submission ∧
        (p.step step).closure.submission = p.sess.state.submission := by
      cases step with
      | tick now env =>
        exact ⟨Session.tick_submission p.closure p.sess now env, h⟩
      | event e =>
        have hst := Page.dispatch_state p e
        have hcl := Page.dispatch_closure p e
        have hkeep := Event.apply_keeps p.sess.state e
        have hs : (p.dispatch e).sess.state.submission = p.sess.state.submission := by
          rcases hst.1 with hs | ⟨-, hs⟩
          · rw [hs]
          · rw [hs]; exact hkeep.2.1
        refine ⟨hs, ?_⟩
        rcases hcl with hc | ⟨hc, -⟩
        · show (p.dispatch e).closure.submission = p.sess.state.submission
          rw [hc]; exact h
        · show (p.dispatch e).closure.submission = p.sess.state.submission
          rw [hc]; exact hs
    have := ih (p.step step) (hstep.2.trans hstep.1.symm)
    exact ⟨this.1.trans hstep.1, this.2.trans hstep.1⟩

/-- A page whose state holds a submission, is started and has no start
time keeps all that and never fires a forced submit. -/
theorem Page.run_of_submission (prior : SubmissionRecord) (steps : List Step) (p : Page)
    (h : p.sess.state.submission = some prior ∧ p.sess.state.started = true ∧
      p.sess.state.startTime = none ∧ p.closure.startTime = none) :
    (p.run steps).sess.state.submission = some prior ∧
    (p.run steps).sess.state.started = true ∧
    (p.run steps).sess.state.startTime = none ∧
    (p.run steps).closure.startTime = none ∧
    (p.run steps).sess.autoSubmits = p.sess.autoSubmits := by
  induction steps generalizing p with
  | nil => exact ⟨h.1, h.2.1, h.2.2.1, h.2.2.2, rfl⟩
  | cons step rest ih =>
    obtain ⟨h1, h2, h3, h4⟩ := h
    have hrun : p.run (step :: rest) = (p.step step).run rest := rfl
    rw [hrun]
    cases step with
    | tick now env =>
      have : p.step (Step.tick now env) = p :=
        Page.tick_of_not_armed p now env (countdownArmed_of_no_startTime _ h4)
      rw [this]
      exact ih p ⟨h1, h2, h3, h4⟩
    | event e =>
      have hst := Page.dispatch_state p e
      have hcl := Page.dispatch_closure p e
      have hkeep := Event.apply_keeps p.sess.state e
      have hstate : (p.dispatch e).sess.state.submission = some prior ∧
          (p.dispatch e).sess.state.started = true ∧
          (p.dispatch e).sess.state.startTime = none := by
        rcases hst.1 with hs | ⟨hen, hs⟩
        · rw [hs]; exact ⟨h1, h2, h3⟩
        · rw [hs]
          have hnostart : ∀ now, e ≠ Event.start now := by
            intro now he
            rw [he] at hen
            simp only [Event.enabled] at hen
            rw [startButton_of_started _ h2] at hen
            exact absurd hen (by simp)
          have hk := hkeep.2.2 hnostart
          exact ⟨hkeep.2.1.trans h1, hk.1.trans h2, hk.2.1.trans h3⟩
      have hclosure : (p.dispatch e).closure.startTime = none := by
        rcases hcl with hc | ⟨hc, -⟩
        · rw [hc]; exact h4
        · rw [hc]; exact hstate.2.2
      have := ih (p.dispatch e) ⟨hstate.1, hstate.2.1, hstate.2.2, hclosure⟩
      exact ⟨this.1, this.2.1, this.2.2.1, this.2.2.2.1, this.2.2.2.2.trans hst.2⟩

/-- C29.  On a fresh session `fetchAssessment` leaves `startTime` null.
When it stored a prior Submission, then whatever the student does and
whenever the clock fires, the submission stays in the state, the Start
button is never offered, `startTime` stays null, the countdown effect
installs no interval and `handleSubmit(true)` is never called.  And on
any fresh session, a firing that does call `handleSubmit(true)` does so
from a render without a submission. -/
theorem loaded_with_submission_never_arms (assessmentId : String) (env : FetchEnv) :
    (fetchAssessment (initialState assessmentId) env).1.startTime = none ∧
    (∀ prior : SubmissionRecord,
      (fetchAssessment (initialState assessmentId) env).1.submission = some prior →
      countdownArmed (fetchAssessment (initialState assessmentId) env).1 = none ∧
      ∀ steps : List Step,
        ((Page.load assessmentId env).run steps).sess.state.submission = some prior ∧
        (view ((Page.load assessmentId env).run steps).sess.state).startButton = false ∧
        ((Page.load assessmentId env).run steps).sess.state.startTime = none ∧
        countdownArmed ((Page.load assessmentId env).run steps).closure = none ∧
        countdownArmed ((Page.load assessmentId env).run steps).sess.state = none ∧
        ((Page.load assessmentId env).run steps).sess.autoSubmits = 0) ∧
    (∀ (steps : List Step) (now : ℤ) (senv : SubmitEnv),
      (((Page.load assessmentId env).run steps).tick now senv).sess.autoSubmits
        ≠ ((Page.load assessmentId env).run steps).sess.autoSubmits →
      ((Page.load assessmentId env).run steps).closure.submission = none ∧
      ((Page.load assessmentId env).run steps).sess.state.submission = none) := by
  have hfresh := fetchAssessment_fresh assessmentId env
  have hmain : ∀ prior : SubmissionRecord,
      (fetchAssessment (initialState assessmentId) env).1.submission = some prior →
      ∀ steps : List Step,
        ((Page.load assessmentId env).run steps).sess.state.submission = some prior ∧
        ((Page.load assessmentId env).run steps).sess.state.started = true ∧
        ((Page.load assessmentId env).run steps).sess.state.startTime = none ∧
        ((Page.load assessmentId env).run steps).closure.startTime = none ∧
        ((Page.load assessmentId env).run steps).sess.autoSubmits = 0 := by
    intro prior hprior steps
    have hstarted := hfresh.2 (by rw [hprior]; simp)
    exact Page.run_of_submission prior steps (Page.load assessmentId env)
      ⟨hprior, hstarted, hfresh.1, hfresh.1⟩
  refine ⟨hfresh.1, ?_, ?_⟩
  · intro prior hprior
    refine ⟨countdownArmed_of_no_startTime _ hfresh.1, fun steps => ?_⟩
    obtain ⟨r1, r2, r3, r4, r5⟩ := hmain prior hprior steps
    exact ⟨r1, startButton_of_started _ r2, r3, countdownArmed_of_no_startTime _ r4,
      countdownArmed_of_no_startTime _ r3, r5⟩
  · intro steps now senv hdiff
    have hsub := Page.run_submission steps (Page.load assessmentId env) rfl
    cases hload : (fetchAssessment (initialState assessmentId) env).1.submission with
    | none =>
      have hl : (Page.load assessmentId env).sess.state.submission = none := hload
      rw [hl] at hsub
      exact ⟨hsub.2, hsub.1⟩
    | some prior =>
      obtain ⟨-, -, -, r4, -⟩ := hmain prior hload steps
      have := Page.tick_of_not_armed ((Page.load assessmentId env).run steps) now senv
        (countdownArmed_of_no_startTime _ r4)
      rw [this] at hdiff
      exact absurd rfl hdiff

/-- The timed quiz loaded with its prior submission: a click on Start
and a firing an hour later change nothing. -/
theorem loaded_with_submission_never_arms_witness :
    (fetchAssessment (initialState "assessment-1") submittedQuizFetch).1.submission
      = some priorSubmission ∧
    ((Page.load "assessment-1" submittedQuizFetch).run
      [Step.event (Event.start 1700000000000), Step.tick 1700003600000 okEnv]).sess.autoSubmits
      = 0 :=
  ⟨rfl,
    (((loaded_with_submission_never_arms "assessment-1" submittedQuizFetch).2.1
      priorSubmission rfl).2
      [Step.event (Event.start 1700000000000), Step.tick 1700003600000 okEnv]).2.2.2.2.2⟩

end AssessmentDetail

namespace Assessments

/-! ## Status of the listed assessments -/

/-- A submission is found for an identifier exactly when some row
carries it. -/
theorem submissionsMapGet_isSome (submissions : Option (List SubmissionRow)) (id : String) :
    (submissionsMapGet submissions id).isSome = true ↔
      ∃ s ∈ submissions.getD [], s.assessment_id = id := by
  unfold submissionsMapGet
  rw [List.find?_isSome]
  constructor
  · rintro ⟨s, hs, hp⟩
    exact ⟨s, List.mem_reverse.mp hs, by simpa using hp⟩
  · rintro ⟨s, hs, hp⟩
    exact ⟨s, List.mem_reverse.mpr hs, by simpa using hp⟩

theorem dateLt_iff (dueTime : Option ℤ) (now : ℤ) :
    dateLt dueTime now = true ↔ ∃ t, dueTime = some t ∧ t < now := by
  cases dueTime with
  | none => simp [dateLt]
  | some t => simp [dateLt]

/-- The rows of `assessmentsWithStatus` are those of `assessmentsData`,
in the same order. -/
theorem assessmentsWithStatus_rows (submissions : Option (List SubmissionRow)) (clock : ℕ → ℤ)
    (assessmentsData : List AssessmentRow) :
    (assessmentsWithStatus submissions clock assessmentsData).map (fun a => a.row)
      = assessmentsData := by
  unfold assessmentsWithStatus
  rw [List.map_map]
  have : ((fun a : AssessmentWithStatus => a.row) ∘
      fun entry : ℕ × AssessmentRow => withStatus submissions (clock entry.1) entry.2)
      = Prod.snd := by
    funext entry
    rfl
  rw [this, List.enum_map_snd]

/-- Every element of `assessmentsWithStatus` is the result of the
callback on a row of `assessmentsData`. -/
theorem mem_assessmentsWithStatus (submissions : Option (List SubmissionRow)) (clock : ℕ → ℤ)
    (assessmentsData : List AssessmentRow) (a : AssessmentWithStatus)
    (h : a ∈ assessmentsWithStatus submissions clock assessmentsData) :
    ∃ (i : ℕ) (row : AssessmentRow), row ∈ assessmentsData ∧
      a = withStatus submissions (clock i) row := by
  unfold assessmentsWithStatus at h
  obtain ⟨entry, hentry, rfl⟩ := List.mem_map.mp h
  obtain ⟨i, row⟩ := entry
  have hget : assessmentsData[i]? = some row := List.mk_mem_enum_iff_getElem?.mp hentry
  exact ⟨i, row, List.getElem?_mem hget, rfl⟩

/-- The status, `isCompleted` and `isOverdue` the callback computes for
one assessment. -/
theorem withStatus_spec (submissions : Option (List SubmissionRow)) (now : ℤ)
    (assessment : AssessmentRow) :
    ((withStatus submissions now assessment).status = "completed" ∨
      (withStatus submissions now assessment).status = "overdue" ∨
      (withStatus submissions now assessment).status = "pending") ∧
    ((withStatus submissions now assessment).status = "completed" ↔
      ∃ s ∈ submissions.getD [], s.assessment_id = assessment.id) ∧
    ((withStatus submissions now assessment).status = "overdue" ↔
      (¬ ∃ s ∈ submissions.getD [], s.assessment_id = assessment.id) ∧
        ∃ t, assessment.dueTime = some t ∧ t < now) ∧
    ((withStatus submissions now assessment).status = "pending" ↔
      (¬ ∃ s ∈ submissions.getD [], s.assessment_id = assessment.id) ∧
        ¬ ∃ t, assessment.dueTime = some t ∧ t < now) ∧
    ((withStatus submissions now assessment).isCompleted = true ↔
      (withStatus submissions now assessment).status = "completed") ∧
    ((withStatus submissions now assessment).isOverdue = true ↔
      (withStatus submissions now assessment).status = "overdue") ∧
    ¬ ((withStatus submissions now assessment).isOverdue = true ∧
      (withStatus submissions now assessment).isCompleted = true) := by
  have hsub := submissionsMapGet_isSome submissions assessment.id
  have hdate := dateLt_iff assessment.dueTime now
  unfold withStatus
  simp only
  cases hc : (submissionsMapGet submissions assessment.id).isSome with
  | true =>
    have hex := hsub.mp hc
    simp [hex]
  | false =>
    have hnex : ¬ ∃ s ∈ submissions.getD [], s.assessment_id = assessment.id := by
      intro h
      rw [hsub.mpr h] at hc
      exact absurd hc (by simp)
    cases hd : dateLt assessment.dueTime now with
    | true =>
      have hdex := hdate.mp hd
      simp [hnex, hdex]
    | false =>
      have hdn : ¬ ∃ t, assessment.dueTime = some t ∧ t < now := by
        intro h
        rw [hdate.mpr h] at hd
        exact absurd hd (by simp)
      simp [hnex, hdn]

/-- C30.  Every element of the list carries one of the three statuses:
`completed` exactly when a submission row exists for the assessment,
`overdue` exactly when none exists and the due date is before the clock
reading, `pending` otherwise; `isOverdue` and `isCompleted` are never
both true; the list keeps the rows of `assessmentsData` in order; and the
`pending` and `completed` filters return, as a sublist in the original
order and with the same multiplicity, exactly the elements with that
status, so that an overdue element is in neither. -/
theorem assessment_status_classification (submissions : Option (List SubmissionRow))
    (clock : ℕ → ℤ) (assessmentsData : List AssessmentRow) :
    (assessmentsWithStatus submissions clock assessmentsData).map (fun a => a.row)
      = assessmentsData ∧
    (∀ a ∈ assessmentsWithStatus submissions clock assessmentsData,
      ∃ (i : ℕ) (row : AssessmentRow), row ∈ assessmentsData ∧
        a = withStatus submissions (clock i) row ∧
        (a.status = "completed" ∨ a.status = "overdue" ∨ a.status = "pending") ∧
        (a.status = "completed" ↔ ∃ s ∈ submissions.getD [], s.assessment_id = row.id) ∧
        (a.status = "overdue" ↔
          (¬ ∃ s ∈ submissions.getD [], s.assessment_id = row.id) ∧
            ∃ t, row.dueTime = some t ∧ t < clock i) ∧
        (a.status = "pending" ↔
          (¬ ∃ s ∈ submissions.getD [], s.assessment_id = row.id) ∧
            ¬ ∃ t, row.dueTime = some t ∧ t < clock i) ∧
        ¬ (a.isOverdue = true ∧ a.isCompleted = true)) ∧
    (∀ (assessments : List AssessmentWithStatus) (filter : String),
      filter = "pending" ∨ filter = "completed" →
      List.Sublist (filteredAssessments filter assessments) assessments ∧
      (∀ a, a ∈ filteredAssessments filter assessments ↔ a ∈ assessments ∧ a.status = filter) ∧
      (∀ a, a.status = filter →
        List.count a (filteredAssessments filter assessments) = List.count a assessments) ∧
      (∀ a, a.status = "overdue" → a ∉ filteredAssessments filter assessments)) ∧
    (∀ assessments : List AssessmentWithStatus,
      filteredAssessments "all" assessments = assessments) := by
  refine ⟨assessmentsWithStatus_rows submissions clock assessmentsData, ?_, ?_, ?_⟩
  · intro a ha
    obtain ⟨i, row, hrow, rfl⟩ := mem_assessmentsWithStatus submissions clock assessmentsData a ha
    have h := withStatus_spec submissions (clock i) row
    exact ⟨i, row, hrow, rfl, h.1, h.2.1, h.2.2.1, h.2.2.2.1, h.2.2.2.2.2.2⟩
  · intro assessments filter hfilter
    have hne : filter ≠ "all" := by
      rcases hfilter with h | h <;> rw [h] <;> decide
    have hdef : filteredAssessments filter assessments
        = assessments.filter fun a => a.status = filter := by
      unfold filteredAssessments
      rw [if_neg hne]
    rw [hdef]
    refine ⟨List.filter_sublist _, ?_, ?_, ?_⟩
    · intro a
      simp [List.mem_filter]
    · intro a ha
      exact List.count_filter (by simpa using ha)
    · intro a ha hmem
      have hs : a.status = filter := by
        have := (List.mem_filter.mp hmem).2
        simpa using this
      rw [ha] at hs
      rcases hfilter with h | h <;> rw [h] at hs <;> exact absurd hs (by decide)
  · intro assessments
    simp [filteredAssessments]

/-- Three assessments at clock reading `1700000000000`: `a1` is
submitted, `a2` is past due, `a3` is due later; the pending filter returns
`a3` only. -/
theorem assessment_status_classification_witness :
    (assessmentsWithStatus sampleSubmissions (fun _ => 1700000000000) sampleRows).map
      (fun a => a.status) = ["completed", "overdue", "pending"] ∧
    (filteredAssessments "pending"
      (assessmentsWithStatus sampleSubmissions (fun _ => 1700000000000) sampleRows)).map
      (fun a => a.row.id) = ["a3"] ∧
    List.Sublist
      (filteredAssessments "pending"
        (assessmentsWithStatus sampleSubmissions (fun _ => 1700000000000) sampleRows))
      (assessmentsWithStatus sampleSubmissions (fun _ => 1700000000000) sampleRows) :=
  ⟨by decide, by decide,
    ((assessment_status_classification sampleSubmissions (fun _ => 1700000000000)
      sampleRows).2.2.1 _ "pending" (Or.inl rfl)).1⟩

end Assessments
